import Mathlib

/-!
Verification of the lab-scheduler core (`src/app.py`).

The data model (Lab, User, LabRequest, Reservation) and the scheduling
operations (`_infer_req_group`, `_assign_reservation_for_request`,
`run_auto_schedule`, `manual_assign`, `update_request_status`,
`ai_explain_conflict_and_suggest`'s suggestion search, and the request
submission path of `new_request`) are shallowly embedded as pure functions
over an explicit `Store` that plays the role of the SQLAlchemy session /
database.  Python `None`-able integer columns become `Option Nat`, dates
become `Int` (day numbers), `datetime` creation stamps become `Nat`, and
Python truthiness of nullable ids is modelled by `pyTruthyId`.
SQLAlchemy queries with autoflush see all pending mutations, so each
operation simply threads the updated `Store`.
-/

namespace LabScheduler

/-- Mirror of the `lab` table (class `Lab`, app.py lines 84-93). -/
structure Lab where
  id : Nat
  name : String
  subject_group : String
  capacity : Nat
  is_active : Bool
deriving DecidableEq

/-- Mirror of the `user` table, restricted to the columns the scheduling core
reads (class `User`, app.py lines 41-57). -/
structure User where
  id : Nat
  full_name : String
  role : String
  preferred_lab_id : Option Nat
deriving DecidableEq

/-- Mirror of the `lab_request` table (class `LabRequest`, app.py lines
113-133).  `week_id` is kept because `new_request` stores it. -/
structure LabRequest where
  id : Nat
  teacher_id : Nat
  class_name : String
  lab_group : String
  week_id : Option Nat
  date : Int
  period : Nat
  status : String
  preferred_lab_id : Option Nat
  created_at : Nat
deriving DecidableEq

/-- Mirror of the `reservation` table (class `Reservation`, app.py lines
136-145). -/
structure Reservation where
  id : Nat
  lab_id : Nat
  request_id : Nat
  date : Int
  period : Nat
deriving DecidableEq

/-- The database state seen through the SQLAlchemy session: one list per
table, plus autoincrement counters for the ids the database would hand out. -/
structure Store where
  labs : List Lab
  users : List User
  requests : List LabRequest
  reservations : List Reservation
  next_request_id : Nat
  next_reservation_id : Nat
deriving DecidableEq

/-- Python truthiness of a nullable integer id column (`None` and `0` are
falsy). -/
def pyTruthyId : Option Nat → Bool
  | none => false
  | some n => n != 0

/-- Python `a or b` on two nullable ids: the first operand when truthy,
otherwise the second. -/
def pyOrId (a b : Option Nat) : Option Nat :=
  if pyTruthyId a then a else b

/-- `db.session.get(Lab, i)` / `Lab.query.get(i)`. -/
def getLab (s : Store) (i : Nat) : Option Lab :=
  s.labs.find? (fun l => l.id == i)

/-- Lookup of a user by primary key (`req.teacher` relationship). -/
def getUser (s : Store) (i : Nat) : Option User :=
  s.users.find? (fun u => u.id == i)

/-- `LabRequest.query.get(i)`. -/
def getRequest (s : Store) (i : Nat) : Option LabRequest :=
  s.requests.find? (fun r => r.id == i)

/-- `Reservation.query.filter_by(request_id=rid).first()`. -/
def reservationForRequest (s : Store) (rid : Nat) : Option Reservation :=
  s.reservations.find? (fun v => v.request_id == rid)

/-- `req.teacher.preferred_lab_id if req.teacher else None`. -/
def teacher_preferred_lab_id (s : Store) (r : LabRequest) : Option Nat :=
  match getUser s r.teacher_id with
  | some t => t.preferred_lab_id
  | none => none

/-- `_infer_req_group` (app.py lines 383-397): priority chain over the
request's own group tag, its preferred lab's group, its teacher's preferred
lab's group, then the global default. -/
def _infer_req_group (s : Store) (req : LabRequest) : String :=
  if req.lab_group ≠ "" then req.lab_group
  else
    let fromPref : Option String :=
      if pyTruthyId req.preferred_lab_id then
        match getLab s (req.preferred_lab_id.getD 0) with
        | some lab => if lab.subject_group ≠ "" then some lab.subject_group else none
        | none => none
      else none
    match fromPref with
    | some g => g
    | none =>
      let fromTeacher : Option String :=
        match getUser s req.teacher_id with
        | some t =>
          if pyTruthyId t.preferred_lab_id then
            match getLab s (t.preferred_lab_id.getD 0) with
            | some lab => if lab.subject_group ≠ "" then some lab.subject_group else none
            | none => none
          else none
        | none => none
      match fromTeacher with
      | some g => g
      | none => "Tin học"

/-- `req.lab_group = g` persisted through the session (app.py line 405). -/
def setRequestGroup (s : Store) (rid : Nat) (g : String) : Store :=
  { s with requests := s.requests.map (fun r => if r.id == rid then { r with lab_group := g } else r) }

/-- `req.status = st` persisted through the session. -/
def setRequestStatus (s : Store) (rid : Nat) (st : String) : Store :=
  { s with requests := s.requests.map (fun r => if r.id == rid then { r with status := st } else r) }

/-- Insertion step of the insertion sort used to model SQL `ORDER BY` and
Python's stable `list.sort`. -/
def insertLe {α : Type} (le : α → α → Bool) (a : α) : List α → List α
  | [] => [a]
  | b :: l => if le a b then a :: b :: l else b :: insertLe le a l

/-- Insertion sort (stable: an element is placed before later elements with
an equal key, matching Python's stable sort and a deterministic `ORDER BY`). -/
def sortLe {α : Type} (le : α → α → Bool) : List α → List α
  | [] => []
  | a :: l => insertLe le a (sortLe le l)

/-- `ORDER BY Lab.name ASC`. -/
def labNameLe (a b : Lab) : Bool :=
  decide (a.name ≤ b.name)

/-- `Lab.query.filter_by(is_active=True, subject_group=g).order_by(Lab.name.asc()).all()`
(app.py line 408). -/
def activeLabsInGroup (s : Store) (g : String) : List Lab :=
  sortLe labNameLe (s.labs.filter (fun l => l.is_active && decide (l.subject_group = g)))

/-- The occupied-resource query of app.py lines 412-418: ids of labs holding a
reservation at `(d, p)` whose own `subject_group` (via the join on `lab.id`)
equals `g`. -/
def occupiedLabIds (s : Store) (d : Int) (p : Nat) (g : String) : List Nat :=
  (s.reservations.filter (fun v =>
    v.date == d && v.period == p &&
      (match getLab s v.lab_id with
       | some lab => decide (lab.subject_group = g)
       | none => false))).map (fun v => v.lab_id)

/-- `pref_lab_id = req.preferred_lab_id or (req.teacher.preferred_lab_id if req.teacher else None)`
(app.py line 420). -/
def pref_lab_id_of (s : Store) (req : LabRequest) : Option Nat :=
  pyOrId req.preferred_lab_id (teacher_preferred_lab_id s req)

/-- The preference pass of `_assign_reservation_for_request` (app.py lines
423-426): the preferred lab when it exists, is active, is in-group and is not
occupied at the slot. -/
def preference_choice (s : Store) (req : LabRequest) (g : String) (occupied_ids : List Nat) : Option Lab :=
  if pyTruthyId (pref_lab_id_of s req) then
    match getLab s ((pref_lab_id_of s req).getD 0) with
    | some pref_lab =>
      if pref_lab.is_active && decide (pref_lab.subject_group = g) &&
          !(decide (pref_lab.id ∈ occupied_ids)) then
        some pref_lab
      else none
    | none => none
  else none

/-- Lab choice of `_assign_reservation_for_request` (app.py lines 420-432):
preference pass, then first free lab in ascending-name order. -/
def choose_lab (s : Store) (req : LabRequest) (g : String)
    (active_labs : List Lab) (occupied_ids : List Nat) : Option Lab :=
  match preference_choice s req g occupied_ids with
  | some pref_lab => some pref_lab
  | none => active_labs.find? (fun l => !(decide (l.id ∈ occupied_ids)))

/-- `_assign_reservation_for_request` (app.py lines 400-439).  Returns the
Python boolean result together with the updated session state. -/
def _assign_reservation_for_request (s : Store) (rid : Nat) : Bool × Store :=
  match getRequest s rid with
  | none => (false, s)
  | some req =>
    if (reservationForRequest s rid).isSome then (true, s)
    else
      let req_group := _infer_req_group s req
      let s1 := setRequestGroup s rid req_group
      let active_labs := activeLabsInGroup s1 req_group
      if active_labs.isEmpty then (false, s1)
      else
        let occupied_ids := occupiedLabIds s1 req.date req.period req_group
        match choose_lab s1 req req_group active_labs occupied_ids with
        | none => (false, s1)
        | some lab =>
          (true, setRequestStatus
            { s1 with
              reservations :=
                s1.reservations ++ [⟨s1.next_reservation_id, lab.id, rid, req.date, req.period⟩],
              next_reservation_id := s1.next_reservation_id + 1 }
            rid "scheduled")

/-- Truthiness of the sort-key test
`r.preferred_lab_id or (r.teacher and r.teacher.preferred_lab_id)`
(app.py line 445). -/
def hasPrefSignal (s : Store) (r : LabRequest) : Bool :=
  pyTruthyId (pref_lab_id_of s r)

/-- The sort key of `run_auto_schedule` (app.py line 445):
`(0 if preference-signal else 1, created_at)`. -/
def autoKey (s : Store) (r : LabRequest) : Nat × Nat :=
  ((if hasPrefSignal s r then 0 else 1), r.created_at)

/-- Python tuple comparison on the `(tier, created_at)` keys. -/
def pairLe (a b : Nat × Nat) : Bool :=
  decide (a.1 < b.1 ∨ (a.1 = b.1 ∧ a.2 ≤ b.2))

/-- The ordered backlog of `run_auto_schedule` (app.py lines 443-446):
requests with status pending or approved, stably sorted by
`(preference-tier, created_at)`. -/
def auto_schedule_order (s : Store) : List LabRequest :=
  sortLe (fun a b => pairLe (autoKey s a) (autoKey s b))
    (s.requests.filter (fun r => decide (r.status = "pending") || decide (r.status = "approved")))

/-- One iteration of the `run_auto_schedule` loop (app.py lines 448-454). -/
def auto_step (st : Store) (r : LabRequest) : Store :=
  if (reservationForRequest st r.id).isSome then st
  else
    match _assign_reservation_for_request st r.id with
    | (true, st1) => st1
    | (false, st1) => setRequestStatus st1 r.id "conflict"

/-- `run_auto_schedule` (app.py lines 442-456): the state effect of the batch
pass.  The Python function body ends with `db.session.commit()` and has no
`return` statement. -/
def run_auto_schedule (s : Store) : Store :=
  (auto_schedule_order s).foldl auto_step s

/-- The Python return value of `run_auto_schedule`: the function has no
`return` statement (app.py lines 442-456 end with `db.session.commit()`), so
every call returns `None`, modelled as `none`; in particular no
`{assignedCount, conflictCount}` record is ever produced. -/
def run_auto_schedule_return (_s : Store) : Option (Nat × Nat) :=
  none

/-- Outcomes of the `manual_assign` route (app.py lines 837-877), one per
rejection branch plus success. -/
inductive ManualAssignResult where
  | requestNotFound
  | missingLabChoice
  | labNotFoundOrInactive
  | groupMismatch
  | slotTaken
  | assigned
deriving DecidableEq

/-- `manual_assign` (app.py lines 837-877).  `lab_id_form` is the parsed
`lab_id` form field (`none` when missing or not an integer). -/
def manual_assign (s : Store) (rid : Nat) (lab_id_form : Option Nat) : ManualAssignResult × Store :=
  match getRequest s rid with
  | none => (.requestNotFound, s)
  | some req =>
    match lab_id_form with
    | none => (.missingLabChoice, s)
    | some lab_id =>
      match getLab s lab_id with
      | none => (.labNotFoundOrInactive, s)
      | some lab =>
        if !lab.is_active then (.labNotFoundOrInactive, s)
        else
          let req_group := _infer_req_group s req
          if decide (lab.subject_group ≠ req_group) then (.groupMismatch, s)
          else if (s.reservations.find? (fun v =>
              v.lab_id == lab.id && v.date == req.date && v.period == req.period)).isSome then
            (.slotTaken, s)
          else
            (.assigned, setRequestStatus
              { s with
                reservations :=
                  (s.reservations.eraseP (fun v => v.request_id == rid)) ++
                    [⟨s.next_reservation_id, lab.id, rid, req.date, req.period⟩],
                next_reservation_id := s.next_reservation_id + 1 }
              rid "scheduled")

/-- `update_request_status` (app.py lines 805-834): validates the status,
delegates `scheduled` to `_assign_reservation_for_request` (falling back to
`conflict` on failure), and otherwise deletes the request's reservation, if
any, before writing the new status. -/
def update_request_status (s : Store) (rid : Nat) (new_status : String) : Store :=
  match getRequest s rid with
  | none => s
  | some _req =>
    if decide (new_status ≠ "pending" ∧ new_status ≠ "approved" ∧
        new_status ≠ "scheduled" ∧ new_status ≠ "conflict") then s
    else if decide (new_status = "scheduled") then
      match _assign_reservation_for_request s rid with
      | (true, s1) => s1
      | (false, s1) => setRequestStatus s1 rid "conflict"
    else
      setRequestStatus
        { s with reservations := s.reservations.eraseP (fun v => v.request_id == rid) }
        rid new_status

/-- Outcomes of the `new_request` POST path (app.py lines 911-1026). -/
inductive NewRequestResult where
  | notTeacher
  | missingFields
  | invalidPreferredLab
  | duplicateSlot
  | created
deriving DecidableEq

/-- Tail of the `new_request` POST path from app.py line 1001: duplicate
check, then insertion of the pending request. -/
def new_request_finish (s : Store) (uid : Nat) (class_name : String) (period : Nat)
    (lab_group : String) (pref : Option Nat) (date_obj : Int) (week_id : Option Nat)
    (now : Nat) : NewRequestResult × Store :=
  if (s.requests.find? (fun r =>
      r.teacher_id == uid && r.date == date_obj && r.period == period &&
        (decide (r.status = "pending") || decide (r.status = "approved") ||
          decide (r.status = "scheduled")))).isSome then
    (.duplicateSlot, s)
  else
    (.created,
      { s with
        requests := s.requests ++
          [⟨s.next_request_id, uid, class_name, lab_group, week_id, date_obj, period,
            "pending", pref, now⟩],
        next_request_id := s.next_request_id + 1 })

/-- The `new_request` POST path (app.py lines 911-1026) after form parsing:
`current_user` is the logged-in user, `period` the parsed period,
`lab_group_form` the raw `lab_group` field, `preferred_lab_id_form` the parsed
preferred lab id (`none` when absent or unparseable), `date_obj` the date
resolved from either the week/weekday pair or the direct date field, and `now`
the `created_at` stamp the database would assign. -/
def new_request (s : Store) (current_user : User) (class_name : String) (period : Nat)
    (lab_group_form : String) (preferred_lab_id_form : Option Nat) (date_obj : Int)
    (week_id : Option Nat) (now : Nat) : NewRequestResult × Store :=
  if decide (current_user.role ≠ "teacher") then (.notTeacher, s)
  else if decide (class_name = "") then (.missingFields, s)
  else if pyTruthyId preferred_lab_id_form then
    match getLab s (preferred_lab_id_form.getD 0) with
    | none => (.invalidPreferredLab, s)
    | some lab =>
      if !lab.is_active then (.invalidPreferredLab, s)
      else
        new_request_finish s current_user.id class_name period lab.subject_group
          preferred_lab_id_form date_obj week_id now
  else
    new_request_finish s current_user.id class_name period
      (if decide (lab_group_form = "") then "Tin học" else lab_group_form)
      preferred_lab_id_form date_obj week_id now

/-- One suggestion entry of `ai_explain_conflict_and_suggest` (app.py lines
534-539), keeping the fields the search logic computes. -/
structure Suggestion where
  date : Int
  period : Nat
  free_lab_names : List String
deriving DecidableEq

/-- The free labs at a candidate slot (app.py lines 525-532): the active
in-group labs not occupied at `(d, p)`. -/
def freeLabsAt (s : Store) (active_labs : List Lab) (g : String) (d : Int) (p : Nat) : List Lab :=
  active_labs.filter (fun l => !(decide (l.id ∈ occupiedLabIds s d p g)))

/-- The candidate dates of the suggestion search, in visit order (app.py
lines 517-519): `[d0, d0-1, d0+1, d0-2, d0+2, ...]` out to `±day_window`. -/
def searchDates (d0 : Int) (day_window : Nat) : List Int :=
  (List.range (day_window + 1)).flatMap (fun delta =>
    if delta == 0 then [d0] else [d0 - (delta : Int), d0 + (delta : Int)])

/-- The candidate `(date, period)` slots in visit order: for each candidate
date, the periods `1..max_period` ascending (app.py line 521). -/
def searchCandidates (d0 : Int) (day_window max_period : Nat) : List (Int × Nat) :=
  (searchDates d0 day_window).flatMap (fun d =>
    (List.range max_period).map (fun i => (d, i + 1)))

/-- The suggestion-collecting loop of `ai_explain_conflict_and_suggest`
(app.py lines 515-545): skip the request's own slot, append a suggestion when
some lab is free (with the first three free lab names), and break out of all
loops once `top_k` suggestions are collected. -/
def suggestLoop (s : Store) (active_labs : List Lab) (g : String) (own_date : Int)
    (own_period : Nat) (top_k : Nat) (acc : List Suggestion) :
    List (Int × Nat) → List Suggestion
  | [] => acc
  | (d, p) :: rest =>
    if d == own_date && p == own_period then
      suggestLoop s active_labs g own_date own_period top_k acc rest
    else
      let free_labs := freeLabsAt s active_labs g d p
      let acc1 := if free_labs.isEmpty then acc
        else acc ++ [⟨d, p, (free_labs.map (fun l => l.name)).take 3⟩]
      if top_k ≤ acc1.length then acc1
      else suggestLoop s active_labs g own_date own_period top_k acc1 rest

/-- The suggestion list computed by `ai_explain_conflict_and_suggest` (app.py
lines 497-560): `none` when the request does not exist (the route answers
`{"ok": False}`), otherwise the `suggestions` component of its result.  The
occupancy snapshot and the fixed rationale string returned alongside do not
interact with the search and are not modelled. -/
def ai_explain_suggestions (s : Store) (rid : Nat) (max_period day_window top_k : Nat) :
    Option (List Suggestion) :=
  match getRequest s rid with
  | none => none
  | some req =>
    let g := _infer_req_group s req
    let active_labs := activeLabsInGroup s g
    some (suggestLoop s active_labs g req.date req.period top_k []
      (searchCandidates req.date day_window max_period))

/-- Spec-level description of the suggestion search (spec §4.3): visit the
candidate slots in the sign-alternating date order crossed with ascending
periods, keep those that are not the request's own slot and have at least one
free active in-group lab, and return the first `top_k` of them. -/
def spec_suggestions (s : Store) (req : LabRequest) (max_period day_window top_k : Nat) :
    List Suggestion :=
  let g := _infer_req_group s req
  let active_labs := activeLabsInGroup s g
  (((searchCandidates req.date day_window max_period).filter (fun c =>
      !(c.1 == req.date && c.2 == req.period) && !(freeLabsAt s active_labs g c.1 c.2).isEmpty)).map
    (fun c => ⟨c.1, c.2, ((freeLabsAt s active_labs g c.1 c.2).map (fun l => l.name)).take 3⟩)).take
    top_k

/-- Status of a request as observed through the store. -/
def statusOf (s : Store) (rid : Nat) : Option String :=
  (getRequest s rid).map (fun r => r.status)

/-- Number of reservations referencing request `rid`. -/
def reservationCount (s : Store) (rid : Nat) : Nat :=
  (s.reservations.filter (fun v => v.request_id == rid)).length

/-- Primary-key uniqueness of the `lab` table. -/
def uniqLabIds (s : Store) : Prop :=
  s.labs.Pairwise (fun a b => a.id ≠ b.id)

/-- Primary-key uniqueness of the `lab_request` table. -/
def uniqRequestIds (s : Store) : Prop :=
  s.requests.Pairwise (fun a b => a.id ≠ b.id)

/-- Slot uniqueness (spec §8): no two distinct reservations share the same
`(lab, date, period)` triple. -/
def slotUnique (s : Store) : Prop :=
  s.reservations.Pairwise (fun a b => (a.lab_id, a.date, a.period) ≠ (b.lab_id, b.date, b.period))

/-- The 1:1 binding invariant (spec §8): a scheduled request has exactly one
reservation referencing it; a request with any other status has none. -/
def binding (s : Store) : Prop :=
  ∀ r ∈ s.requests,
    (r.status = "scheduled" → reservationCount s r.id = 1) ∧
    (r.status ≠ "scheduled" → reservationCount s r.id = 0)

/-! ### Decidability of the invariants (used to check concrete stores) -/

instance (s : Store) : Decidable (uniqLabIds s) := by
  unfold uniqLabIds; infer_instance

instance (s : Store) : Decidable (uniqRequestIds s) := by
  unfold uniqRequestIds; infer_instance

instance (s : Store) : Decidable (slotUnique s) := by
  unfold slotUnique; infer_instance

instance (s : Store) : Decidable (binding s) := by
  unfold binding; infer_instance

/-! ### Concrete fixtures used to exercise the theorems -/

/-- An active informatics lab. -/
def exLabA : Lab := ⟨1, "Lab A", "Tin học", 40, true⟩

/-- An active lab in a different subject group. -/
def exLabChem : Lab := ⟨2, "Lab C", "Hóa học", 40, true⟩

/-- A teacher with no standing lab preference. -/
def exTeacher : User := ⟨10, "Teacher 1", "teacher", none⟩

/-- A pending request with no preference signal, created first. -/
def exReqA : LabRequest := ⟨1, 10, "10A", "Tin học", none, 100, 1, "pending", none, 1⟩

/-- A pending request that prefers lab 1, created second. -/
def exReqB : LabRequest := ⟨2, 10, "10B", "Tin học", none, 100, 2, "pending", some 1, 2⟩

/-- A conflicted request used for the suggestion-search scenario. -/
def exReqConf : LabRequest := ⟨3, 10, "10C", "Tin học", none, 100, 1, "conflict", none, 3⟩

/-- A request whose resolved group has no lab at all. -/
def exReqOrphan : LabRequest := ⟨4, 10, "10D", "Vật lý", none, 100, 1, "pending", none, 4⟩

/-- Store with one lab, one teacher and one pending request. -/
def exStoreBasic : Store := ⟨[exLabA], [exTeacher], [exReqA], [], 5, 1⟩

/-- The store after assigning request 1 in `exStoreBasic`. -/
def exStoreBasicAfter : Store := (_assign_reservation_for_request exStoreBasic 1).2

/-- Store with a preference-bearing request. -/
def exStorePref : Store := ⟨[exLabA], [exTeacher], [exReqB], [], 5, 1⟩

/-- Store with one no-preference request (created first) and one
preference-bearing request (created second), both pending. -/
def exStoreBatch : Store := ⟨[exLabA], [exTeacher], [exReqA, exReqB], [], 5, 1⟩

/-- Store for the group-mismatch scenario: the request resolves to group
"Tin học" but the only lab is a chemistry lab. -/
def exStoreMismatch : Store := ⟨[exLabChem], [exTeacher], [exReqA], [], 5, 1⟩

/-- Store for the assignment-failure frame scenario: the request's group has
no labs. -/
def exStoreOrphan : Store := ⟨[exLabA], [exTeacher], [exReqOrphan], [], 5, 1⟩

/-- Store for the suggestion-search scenario: every slot in the `±2`-day,
2-period window around (100, 1) is occupied on the single lab except
(101, 2); the request's own slot (100, 1) is skipped by the search. -/
def exStoreSearch : Store :=
  ⟨[exLabA], [exTeacher], [exReqConf],
    [⟨1, 1, 101, 100, 2⟩, ⟨2, 1, 102, 99, 1⟩, ⟨3, 1, 103, 99, 2⟩, ⟨4, 1, 104, 101, 1⟩,
      ⟨5, 1, 105, 98, 1⟩, ⟨6, 1, 106, 98, 2⟩, ⟨7, 1, 107, 102, 1⟩, ⟨8, 1, 108, 102, 2⟩],
    5, 9⟩

/-! ### Generic list lemmas -/

theorem find?_map_of_pred_pres {α : Type} (f : α → α) (p : α → Bool)
    (hp : ∀ a, p (f a) = p a) : ∀ l : List α, (l.map f).find? p = (l.find? p).map f := by
  intro l
  induction l with
  | nil => rfl
  | cons a t ih =>
    by_cases h : p a = true
    · simp [List.find?_cons, hp, h]
    · simp only [Bool.not_eq_true] at h
      simp [List.find?_cons, hp, h, ih]

theorem eq_of_pairwise_ne_key {α : Type} (f : α → Nat) :
    ∀ {l : List α}, l.Pairwise (fun a b => f a ≠ f b) →
      ∀ a ∈ l, ∀ b ∈ l, f a = f b → a = b := by
  intro l hl
  induction hl with
  | nil => intro a ha; cases ha
  | cons hhead _htail ih =>
    intro a ha b hb hab
    rcases List.mem_cons.mp ha with rfl | ha'
    · rcases List.mem_cons.mp hb with rfl | hb'
      · rfl
      · exact absurd hab (hhead b hb')
    · rcases List.mem_cons.mp hb with rfl | hb'
      · exact absurd hab.symm (hhead a ha')
      · exact ih a ha' b hb' hab

theorem insertLe_perm {α : Type} (le : α → α → Bool) (a : α) :
    ∀ l : List α, (insertLe le a l).Perm (a :: l) := by
  intro l
  induction l with
  | nil => exact List.Perm.refl _
  | cons b t ih =>
    unfold insertLe
    by_cases h : le a b = true
    · simp only [h, if_true]
      exact List.Perm.refl _
    · simp only [h, if_false]
      exact (ih.cons b).trans (List.Perm.swap a b t)

theorem sortLe_perm {α : Type} (le : α → α → Bool) :
    ∀ l : List α, (sortLe le l).Perm l := by
  intro l
  induction l with
  | nil => exact List.Perm.refl _
  | cons a t ih => exact (insertLe_perm le a (sortLe le t)).trans (ih.cons a)

theorem mem_sortLe {α : Type} (le : α → α → Bool) (l : List α) (a : α) :
    a ∈ sortLe le l ↔ a ∈ l :=
  (sortLe_perm le l).mem_iff

theorem pairwise_insertLe {α : Type} (le : α → α → Bool)
    (htot : ∀ a b, le a b = true ∨ le b a = true)
    (htrans : ∀ a b c, le a b = true → le b c = true → le a c = true) (a : α) :
    ∀ {l : List α}, l.Pairwise (fun x y => le x y = true) →
      (insertLe le a l).Pairwise (fun x y => le x y = true) := by
  intro l hl
  induction l with
  | nil => exact List.pairwise_singleton _ _
  | cons b t ih =>
    rcases List.pairwise_cons.mp hl with ⟨hb, ht⟩
    unfold insertLe
    by_cases h : le a b = true
    · simp only [h, if_true]
      refine List.pairwise_cons.mpr ⟨?_, hl⟩
      intro y hy
      rcases List.mem_cons.mp hy with rfl | hy'
      · exact h
      · exact htrans a b y h (hb y hy')
    · simp only [h, if_false]
      refine List.pairwise_cons.mpr ⟨?_, ih ht⟩
      intro y hy
      rcases List.mem_cons.mp ((insertLe_perm le a t).mem_iff.mp hy) with hya | hy'
      · subst hya
        rcases htot y b with hab | hba
        · exact absurd hab h
        · exact hba
      · exact hb y hy'

theorem pairwise_sortLe {α : Type} (le : α → α → Bool)
    (htot : ∀ a b, le a b = true ∨ le b a = true)
    (htrans : ∀ a b c, le a b = true → le b c = true → le a c = true) :
    ∀ l : List α, (sortLe le l).Pairwise (fun x y => le x y = true) := by
  intro l
  induction l with
  | nil => exact List.Pairwise.nil
  | cons a t ih => exact pairwise_insertLe le htot htrans a ih

theorem length_filter_eraseP_self {α : Type} (p : α → Bool) :
    ∀ l : List α, ((l.eraseP p).filter p).length = (l.filter p).length - 1 := by
  intro l
  induction l with
  | nil => rfl
  | cons a t ih =>
    by_cases h : p a = true
    · simp [List.eraseP_cons, h, List.filter_cons]
    · simp only [Bool.not_eq_true] at h
      simp [List.eraseP_cons, h, List.filter_cons, ih]

theorem filter_eraseP_ne {α : Type} (p q : α → Bool)
    (hpq : ∀ a, p a = true → q a = false) :
    ∀ l : List α, (l.eraseP p).filter q = l.filter q := by
  intro l
  induction l with
  | nil => rfl
  | cons a t ih =>
    by_cases h : p a = true
    · simp [List.eraseP_cons, h, List.filter_cons, hpq a h]
    · simp only [Bool.not_eq_true] at h
      simp [List.eraseP_cons, h, List.filter_cons, ih]

theorem foldl_preserve {α β : Type} (P : β → Prop) (f : β → α → β)
    (hf : ∀ b a, P b → P (f b a)) :
    ∀ (l : List α) (b : β), P b → P (l.foldl f b) := by
  intro l
  induction l with
  | nil => intro b hb; exact hb
  | cons a t ih => intro b hb; exact ih (f b a) (hf b a hb)

/-! ### Frame lemmas for the session mutators -/

@[simp] theorem labs_setRequestGroup (s : Store) (rid : Nat) (g : String) :
    (setRequestGroup s rid g).labs = s.labs := rfl

@[simp] theorem users_setRequestGroup (s : Store) (rid : Nat) (g : String) :
    (setRequestGroup s rid g).users = s.users := rfl

@[simp] theorem reservations_setRequestGroup (s : Store) (rid : Nat) (g : String) :
    (setRequestGroup s rid g).reservations = s.reservations := rfl

@[simp] theorem labs_setRequestStatus (s : Store) (rid : Nat) (v : String) :
    (setRequestStatus s rid v).labs = s.labs := rfl

@[simp] theorem users_setRequestStatus (s : Store) (rid : Nat) (v : String) :
    (setRequestStatus s rid v).users = s.users := rfl

@[simp] theorem reservations_setRequestStatus (s : Store) (rid : Nat) (v : String) :
    (setRequestStatus s rid v).reservations = s.reservations := rfl

@[simp] theorem getLab_setRequestGroup (s : Store) (rid : Nat) (g : String) (i : Nat) :
    getLab (setRequestGroup s rid g) i = getLab s i := rfl

@[simp] theorem getUser_setRequestGroup (s : Store) (rid : Nat) (g : String) (i : Nat) :
    getUser (setRequestGroup s rid g) i = getUser s i := rfl

@[simp] theorem activeLabsInGroup_setRequestGroup (s : Store) (rid : Nat) (g gg : String) :
    activeLabsInGroup (setRequestGroup s rid g) gg = activeLabsInGroup s gg := rfl

@[simp] theorem occupiedLabIds_setRequestGroup (s : Store) (rid : Nat) (g : String)
    (d : Int) (p : Nat) (gg : String) :
    occupiedLabIds (setRequestGroup s rid g) d p gg = occupiedLabIds s d p gg := rfl

@[simp] theorem reservationForRequest_setRequestGroup (s : Store) (rid : Nat) (g : String)
    (rid' : Nat) :
    reservationForRequest (setRequestGroup s rid g) rid' = reservationForRequest s rid' := rfl

@[simp] theorem pref_lab_id_of_setRequestGroup (s : Store) (rid : Nat) (g : String)
    (req : LabRequest) :
    pref_lab_id_of (setRequestGroup s rid g) req = pref_lab_id_of s req := rfl

@[simp] theorem preference_choice_setRequestGroup (s : Store) (rid : Nat) (g : String)
    (req : LabRequest) (gg : String) (occ : List Nat) :
    preference_choice (setRequestGroup s rid g) req gg occ = preference_choice s req gg occ := rfl

@[simp] theorem choose_lab_setRequestGroup (s : Store) (rid : Nat) (g : String)
    (req : LabRequest) (gg : String) (al : List Lab) (occ : List Nat) :
    choose_lab (setRequestGroup s rid g) req gg al occ = choose_lab s req gg al occ := rfl

@[simp] theorem reservationCount_setRequestGroup (s : Store) (rid : Nat) (g : String)
    (rid' : Nat) :
    reservationCount (setRequestGroup s rid g) rid' = reservationCount s rid' := rfl

@[simp] theorem reservationCount_setRequestStatus (s : Store) (rid : Nat) (v : String)
    (rid' : Nat) :
    reservationCount (setRequestStatus s rid v) rid' = reservationCount s rid' := rfl

theorem getRequest_setRequestGroup (s : Store) (rid : Nat) (g : String) (q : Nat) :
    getRequest (setRequestGroup s rid g) q =
      (getRequest s q).map (fun r => if r.id == rid then { r with lab_group := g } else r) := by
  unfold getRequest setRequestGroup
  exact find?_map_of_pred_pres _ _ (fun r => by by_cases h : r.id == rid <;> simp [h]) _

theorem getRequest_setRequestStatus (s : Store) (rid : Nat) (v : String) (q : Nat) :
    getRequest (setRequestStatus s rid v) q =
      (getRequest s q).map (fun r => if r.id == rid then { r with status := v } else r) := by
  unfold getRequest setRequestStatus
  exact find?_map_of_pred_pres _ _ (fun r => by by_cases h : r.id == rid <;> simp [h]) _

theorem getRequest_some_id (s : Store) (rid : Nat) (r : LabRequest)
    (h : getRequest s rid = some r) : r.id = rid := by
  unfold getRequest at h
  simpa using List.find?_some h

theorem mem_of_getRequest_some (s : Store) (rid : Nat) (r : LabRequest)
    (h : getRequest s rid = some r) : r ∈ s.requests := by
  unfold getRequest at h
  exact List.mem_of_find?_eq_some h

theorem statusOf_setRequestGroup (s : Store) (rid : Nat) (g : String) (q : Nat) :
    statusOf (setRequestGroup s rid g) q = statusOf s q := by
  unfold statusOf
  rw [getRequest_setRequestGroup]
  cases hfind : getRequest s q with
  | none => rfl
  | some r => by_cases h : r.id = rid <;> simp [h]

theorem statusOf_setRequestStatus_self (s : Store) (rid : Nat) (v : String)
    (h : (getRequest s rid).isSome = true) :
    statusOf (setRequestStatus s rid v) rid = some v := by
  unfold statusOf
  rw [getRequest_setRequestStatus]
  obtain ⟨r, hr⟩ := Option.isSome_iff_exists.mp h
  have hrid : r.id = rid := getRequest_some_id s rid r hr
  rw [hr]
  simp [hrid]

theorem statusOf_setRequestStatus_ne (s : Store) (rid : Nat) (v : String) (q : Nat)
    (h : q ≠ rid) :
    statusOf (setRequestStatus s rid v) q = statusOf s q := by
  unfold statusOf
  rw [getRequest_setRequestStatus]
  cases hfind : getRequest s q with
  | none => rfl
  | some r =>
    have hq : r.id = q := getRequest_some_id s q r hfind
    have hne : r.id ≠ rid := by rw [hq]; exact h
    simp [hne]

theorem getRequest_isSome_setRequestGroup (s : Store) (rid : Nat) (g : String) (q : Nat) :
    (getRequest (setRequestGroup s rid g) q).isSome = (getRequest s q).isSome := by
  rw [getRequest_setRequestGroup]; cases getRequest s q <;> rfl

theorem getRequest_isSome_setRequestStatus (s : Store) (rid : Nat) (v : String) (q : Nat) :
    (getRequest (setRequestStatus s rid v) q).isSome = (getRequest s q).isSome := by
  rw [getRequest_setRequestStatus]; cases getRequest s q <;> rfl

/-! ### Properties of the lab choice -/

theorem mem_activeLabsInGroup (s : Store) (g : String) (l : Lab) :
    l ∈ activeLabsInGroup s g ↔ l ∈ s.labs ∧ l.is_active = true ∧ l.subject_group = g := by
  unfold activeLabsInGroup
  rw [mem_sortLe, List.mem_filter]
  simp [and_assoc]

theorem preference_choice_spec (s : Store) (req : LabRequest) (g : String) (occ : List Nat)
    (pl : Lab) (h : preference_choice s req g occ = some pl) :
    pl ∈ s.labs ∧ pl.is_active = true ∧ pl.subject_group = g ∧ pl.id ∉ occ := by
  unfold preference_choice at h
  split at h
  · split at h
    next lab hg =>
      split at h
      next hc =>
        injection h with h
        subst h
        simp only [Bool.and_eq_true, Bool.not_eq_true', decide_eq_true_eq,
          decide_eq_false_iff_not] at hc
        refine ⟨?_, hc.1.1, hc.1.2, hc.2⟩
        unfold getLab at hg
        exact List.mem_of_find?_eq_some hg
      next hc => cases h
    next hg => cases h
  · cases h

theorem choose_lab_spec (s : Store) (req : LabRequest) (g : String) (occ : List Nat)
    (lab : Lab) (h : choose_lab s req g (activeLabsInGroup s g) occ = some lab) :
    lab ∈ s.labs ∧ lab.is_active = true ∧ lab.subject_group = g ∧ lab.id ∉ occ := by
  unfold choose_lab at h
  cases hp : preference_choice s req g occ with
  | some pl =>
    rw [hp] at h
    injection h with h
    subst h
    exact preference_choice_spec s req g occ _ hp
  | none =>
    rw [hp] at h
    have hmem := List.mem_of_find?_eq_some h
    have hpred := List.find?_some h
    simp only [Bool.not_eq_true', decide_eq_false_iff_not] at hpred
    rcases (mem_activeLabsInGroup s g lab).mp hmem with ⟨h1, h2, h3⟩
    exact ⟨h1, h2, h3, hpred⟩

theorem getLab_eq_of_mem (s : Store) (lab : Lab) (hu : uniqLabIds s) (hm : lab ∈ s.labs) :
    getLab s lab.id = some lab := by
  unfold getLab
  have hsome : (s.labs.find? (fun l => l.id == lab.id)).isSome = true :=
    List.find?_isSome.mpr ⟨lab, hm, by simp⟩
  obtain ⟨x, hx⟩ := Option.isSome_iff_exists.mp hsome
  have hxmem := List.mem_of_find?_eq_some hx
  have hxid : x.id = lab.id := by simpa using List.find?_some hx
  rw [hx, eq_of_pairwise_ne_key Lab.id hu x hxmem lab hm hxid]

theorem mem_occupiedLabIds (s : Store) (d : Int) (p : Nat) (g : String)
    (v : Reservation) (hv : v ∈ s.reservations) (hd : v.date = d) (hp : v.period = p)
    (lab : Lab) (hl : getLab s v.lab_id = some lab) (hg : lab.subject_group = g) :
    v.lab_id ∈ occupiedLabIds s d p g := by
  unfold occupiedLabIds
  refine List.mem_map.mpr ⟨v, List.mem_filter.mpr ⟨hv, ?_⟩, rfl⟩
  rw [hl]
  simp [hd, hp, hg]

theorem reservationCount_eq_zero_of_none (s : Store) (rid : Nat)
    (h : reservationForRequest s rid = none) : reservationCount s rid = 0 := by
  unfold reservationCount
  unfold reservationForRequest at h
  have hall := List.find?_eq_none.mp h
  simp only [List.length_eq_zero]
  exact List.filter_eq_nil_iff.mpr (fun a ha => hall a ha)

/-- Case analysis of `_assign_reservation_for_request`: the request is
missing; the idempotent short-circuit fires; assignment fails after
persisting the resolved group; or assignment succeeds with a lab that is
active, in the resolved group, and unoccupied at the slot. -/
theorem assign_result (s : Store) (rid : Nat) :
    (getRequest s rid = none ∧ _assign_reservation_for_request s rid = (false, s)) ∨
    ((getRequest s rid).isSome = true ∧ (reservationForRequest s rid).isSome = true ∧
      _assign_reservation_for_request s rid = (true, s)) ∨
    (∃ req, getRequest s rid = some req ∧ reservationForRequest s rid = none ∧
      _assign_reservation_for_request s rid =
        (false, setRequestGroup s rid (_infer_req_group s req))) ∨
    (∃ req lab, getRequest s rid = some req ∧ reservationForRequest s rid = none ∧
      lab ∈ s.labs ∧ lab.is_active = true ∧ lab.subject_group = _infer_req_group s req ∧
      lab.id ∉ occupiedLabIds s req.date req.period (_infer_req_group s req) ∧
      _assign_reservation_for_request s rid =
        (true, setRequestStatus
          { setRequestGroup s rid (_infer_req_group s req) with
            reservations := s.reservations ++
              [⟨s.next_reservation_id, lab.id, rid, req.date, req.period⟩],
            next_reservation_id := s.next_reservation_id + 1 }
          rid "scheduled")) := by
  cases hreq : getRequest s rid with
  | none =>
    left
    refine ⟨rfl, ?_⟩
    unfold _assign_reservation_for_request
    rw [hreq]
  | some req =>
    cases hres : reservationForRequest s rid with
    | some v =>
      right; left
      refine ⟨by simp [hreq], by simp [hres], ?_⟩
      unfold _assign_reservation_for_request
      rw [hreq, hres]
      rfl
    | none =>
      have hbody : _assign_reservation_for_request s rid =
          (if (activeLabsInGroup s (_infer_req_group s req)).isEmpty then
            (false, setRequestGroup s rid (_infer_req_group s req))
          else
            match choose_lab s req (_infer_req_group s req)
                (activeLabsInGroup s (_infer_req_group s req))
                (occupiedLabIds s req.date req.period (_infer_req_group s req)) with
            | none => (false, setRequestGroup s rid (_infer_req_group s req))
            | some lab =>
              (true, setRequestStatus
                { setRequestGroup s rid (_infer_req_group s req) with
                  reservations := s.reservations ++
                    [⟨s.next_reservation_id, lab.id, rid, req.date, req.period⟩],
                  next_reservation_id := s.next_reservation_id + 1 }
                rid "scheduled")) := by
        unfold _assign_reservation_for_request
        rw [hreq, hres]
        rfl
      by_cases hempty : (activeLabsInGroup s (_infer_req_group s req)).isEmpty = true
      · right; right; left
        refine ⟨req, rfl, rfl, ?_⟩
        rw [hbody, if_pos hempty]
      · rw [if_neg hempty] at hbody
        cases hchoose : choose_lab s req (_infer_req_group s req)
            (activeLabsInGroup s (_infer_req_group s req))
            (occupiedLabIds s req.date req.period (_infer_req_group s req)) with
        | none =>
          right; right; left
          refine ⟨req, rfl, rfl, ?_⟩
          rw [hbody, hchoose]
        | some lab =>
          right; right; right
          rcases choose_lab_spec s req (_infer_req_group s req)
              (occupiedLabIds s req.date req.period (_infer_req_group s req)) lab hchoose
            with ⟨h1, h2, h3, h4⟩
          refine ⟨req, lab, rfl, rfl, h1, h2, h3, h4, ?_⟩
          rw [hbody, hchoose]

/-! ### Preservation of slot uniqueness -/

theorem slotUnique_of_reservations_eq (s s' : Store)
    (h : s'.reservations = s.reservations) (hs : slotUnique s) : slotUnique s' := by
  unfold slotUnique at hs ⊢
  rw [h]
  exact hs

theorem slotUnique_append_new (s : Store) (old : List Reservation) (w : Reservation)
    (hold : old = s.reservations) (hs : slotUnique s)
    (hfresh : ∀ v ∈ s.reservations, (v.lab_id, v.date, v.period) ≠ (w.lab_id, w.date, w.period)) :
    (old ++ [w]).Pairwise
      (fun a b => (a.lab_id, a.date, a.period) ≠ (b.lab_id, b.date, b.period)) := by
  subst hold
  refine List.pairwise_append.mpr ⟨hs, List.pairwise_singleton _ _, ?_⟩
  intro a ha b hb
  rcases List.mem_singleton.mp hb with rfl
  exact hfresh a ha

theorem slotUnique_assign (s : Store) (rid : Nat) (hu : uniqLabIds s) (hs : slotUnique s) :
    slotUnique (_assign_reservation_for_request s rid).2 := by
  rcases assign_result s rid with ⟨_, heq⟩ | ⟨_, _, heq⟩ | ⟨req, _, _, heq⟩ |
    ⟨req, lab, hreq, hres, h1, h2, h3, h4, heq⟩
  · rw [heq]; exact hs
  · rw [heq]; exact hs
  · rw [heq]; exact slotUnique_of_reservations_eq s _ rfl hs
  · rw [heq]
    unfold slotUnique
    show (s.reservations ++
      [(⟨s.next_reservation_id, lab.id, rid, req.date, req.period⟩ : Reservation)]).Pairwise _
    refine slotUnique_append_new s _ _ rfl hs ?_
    intro v hv hne
    simp only [Prod.mk.injEq] at hne
    obtain ⟨e1, e2, e3⟩ := hne
    apply h4
    have hlab : getLab s v.lab_id = some lab := by
      rw [e1]; exact getLab_eq_of_mem s lab hu h1
    have := mem_occupiedLabIds s req.date req.period (_infer_req_group s req) v hv e2 e3 lab hlab h3
    rwa [e1] at this

/-- Case analysis of `manual_assign`: every rejection branch leaves the store
untouched; the success branch replaces the request's reservation and marks it
scheduled, after the slot-free check passed. -/
theorem manual_result (s : Store) (rid : Nat) (lid : Option Nat) :
    (manual_assign s rid lid).2 = s ∨
    (∃ req lab lab_id, lid = some lab_id ∧ getRequest s rid = some req ∧
      getLab s lab_id = some lab ∧ lab.is_active = true ∧
      lab.subject_group = _infer_req_group s req ∧
      s.reservations.find? (fun v =>
        v.lab_id == lab.id && v.date == req.date && v.period == req.period) = none ∧
      manual_assign s rid lid =
        (.assigned, setRequestStatus
          { s with
            reservations := (s.reservations.eraseP (fun v => v.request_id == rid)) ++
              [⟨s.next_reservation_id, lab.id, rid, req.date, req.period⟩],
            next_reservation_id := s.next_reservation_id + 1 }
          rid "scheduled")) := by
  cases hreq : getRequest s rid with
  | none =>
    left
    have : manual_assign s rid lid = (.requestNotFound, s) := by
      unfold manual_assign; rw [hreq]
    rw [this]
  | some req =>
    cases lid with
    | none =>
      left
      have : manual_assign s rid none = (.missingLabChoice, s) := by
        unfold manual_assign; rw [hreq]
      rw [this]
    | some lab_id =>
      cases hlab : getLab s lab_id with
      | none =>
        left
        have : manual_assign s rid (some lab_id) = (.labNotFoundOrInactive, s) := by
          unfold manual_assign; simp only [hreq, hlab]
        rw [this]
      | some lab =>
        have hbody : manual_assign s rid (some lab_id) =
            (if (!lab.is_active) = true then (.labNotFoundOrInactive, s)
            else if decide (lab.subject_group ≠ _infer_req_group s req) = true then
              (.groupMismatch, s)
            else if (s.reservations.find? (fun v =>
                v.lab_id == lab.id && v.date == req.date && v.period == req.period)).isSome = true then
              (.slotTaken, s)
            else
              (.assigned, setRequestStatus
                { s with
                  reservations := (s.reservations.eraseP (fun v => v.request_id == rid)) ++
                    [⟨s.next_reservation_id, lab.id, rid, req.date, req.period⟩],
                  next_reservation_id := s.next_reservation_id + 1 }
                rid "scheduled")) := by
          unfold manual_assign; simp only [hreq, hlab]
        by_cases hact : (!lab.is_active) = true
        · rw [if_pos hact] at hbody; left; rw [hbody]
        · rw [if_neg hact] at hbody
          by_cases hmm : decide (lab.subject_group ≠ _infer_req_group s req) = true
          · rw [if_pos hmm] at hbody; left; rw [hbody]
          · rw [if_neg hmm] at hbody
            cases hconf : s.reservations.find? (fun v =>
                v.lab_id == lab.id && v.date == req.date && v.period == req.period) with
            | some v =>
              rw [hconf] at hbody
              simp only [Option.isSome_some, if_true] at hbody
              left; rw [hbody]
            | none =>
              rw [hconf] at hbody
              simp only [Option.isSome_none, Bool.false_eq_true, if_false] at hbody
              right
              refine ⟨req, lab, lab_id, rfl, rfl, hlab, ?_, ?_, hconf, hbody⟩
              · simpa using hact
              · simpa [decide_eq_true_eq] using hmm

theorem slotUnique_manual (s : Store) (rid : Nat) (lid : Option Nat) (hs : slotUnique s) :
    slotUnique (manual_assign s rid lid).2 := by
  rcases manual_result s rid lid with heq | ⟨req, lab, lab_id, _, _, _, _, _, hconf, heq⟩
  · rw [heq]; exact hs
  · rw [heq]
    unfold slotUnique
    show ((s.reservations.eraseP (fun v => v.request_id == rid)) ++
      [(⟨s.next_reservation_id, lab.id, rid, req.date, req.period⟩ : Reservation)]).Pairwise _
    have hall := List.find?_eq_none.mp hconf
    refine List.pairwise_append.mpr
      ⟨hs.sublist (List.eraseP_sublist _), List.pairwise_singleton _ _, ?_⟩
    intro a ha b hb
    rcases List.mem_singleton.mp hb with rfl
    intro hne
    simp only [Prod.mk.injEq] at hne
    obtain ⟨e1, e2, e3⟩ := hne
    have hmem : a ∈ s.reservations := (List.eraseP_sublist _).mem ha
    have := hall a hmem
    simp [e1, e2, e3] at this

theorem assign_labs (s : Store) (rid : Nat) :
    (_assign_reservation_for_request s rid).2.labs = s.labs := by
  rcases assign_result s rid with ⟨_, heq⟩ | ⟨_, _, heq⟩ | ⟨req, _, _, heq⟩ |
    ⟨req, lab, _, _, _, _, _, _, heq⟩ <;> rw [heq] <;> rfl

theorem auto_step_labs (st : Store) (r : LabRequest) : (auto_step st r).labs = st.labs := by
  unfold auto_step
  by_cases h : (reservationForRequest st r.id).isSome = true
  · rw [if_pos h]
  · rw [if_neg h]
    rcases hA : _assign_reservation_for_request st r.id with ⟨ok, st1⟩
    have hl : st1.labs = st.labs := by
      have := assign_labs st r.id
      rw [hA] at this
      exact this
    cases ok
    · simpa using hl
    · simpa using hl

theorem slotUnique_auto_step (s st : Store) (r : LabRequest) (hu : uniqLabIds s)
    (hlabs : st.labs = s.labs) (hs : slotUnique st) : slotUnique (auto_step st r) := by
  have hust : uniqLabIds st := by unfold uniqLabIds; rw [hlabs]; exact hu
  unfold auto_step
  by_cases h : (reservationForRequest st r.id).isSome = true
  · rw [if_pos h]; exact hs
  · rw [if_neg h]
    rcases hA : _assign_reservation_for_request st r.id with ⟨ok, st1⟩
    have hsu : slotUnique st1 := by
      have := slotUnique_assign st r.id hust hs
      rw [hA] at this
      exact this
    cases ok
    · exact slotUnique_of_reservations_eq st1 _ rfl hsu
    · exact hsu

theorem slotUnique_run_auto_schedule (s : Store) (hu : uniqLabIds s) (hs : slotUnique s) :
    slotUnique (run_auto_schedule s) := by
  unfold run_auto_schedule
  have := foldl_preserve (fun st => st.labs = s.labs ∧ slotUnique st) auto_step
    (fun st r hst => ⟨by rw [auto_step_labs]; exact hst.1,
      slotUnique_auto_step s st r hu hst.1 hst.2⟩)
    (auto_schedule_order s) s ⟨rfl, hs⟩
  exact this.2

/-! ### Preservation of the 1:1 binding invariant -/

theorem binding_of_map (s s' : Store) (f : LabRequest → LabRequest)
    (hreq : s'.requests = s.requests.map f)
    (hid : ∀ r, (f r).id = r.id)
    (hcond : ∀ r ∈ s.requests,
      ((f r).status = "scheduled" → reservationCount s' r.id = 1) ∧
      ((f r).status ≠ "scheduled" → reservationCount s' r.id = 0)) :
    binding s' := by
  intro r hr
  rw [hreq] at hr
  rcases List.mem_map.mp hr with ⟨r0, hr0, rfl⟩
  rw [hid]
  exact hcond r0 hr0

theorem count_append_single (l : List Reservation) (w : Reservation) (x : Nat) :
    ((l ++ [w]).filter (fun v => v.request_id == x)).length =
      (l.filter (fun v => v.request_id == x)).length + (if w.request_id = x then 1 else 0) := by
  by_cases h : w.request_id = x <;> simp [List.filter_append, List.filter_cons, h]

theorem reservationCount_le_one (s : Store) (rid : Nat) (req : LabRequest)
    (hreq : getRequest s rid = some req) (hb : binding s) : reservationCount s rid ≤ 1 := by
  have hmem := mem_of_getRequest_some s rid req hreq
  have hid := getRequest_some_id s rid req hreq
  rcases hb req hmem with ⟨h1, h2⟩
  by_cases hst : req.status = "scheduled"
  · rw [← hid, h1 hst]
  · rw [← hid, h2 hst]
    exact Nat.zero_le 1

theorem binding_setRequestGroup (s : Store) (rid : Nat) (g : String) (hb : binding s) :
    binding (setRequestGroup s rid g) := by
  refine binding_of_map s _ (fun r => if r.id == rid then { r with lab_group := g } else r) rfl
    (fun r => by by_cases h : r.id = rid <;> simp [h]) ?_
  intro r hr
  have hst : (if r.id == rid then { r with lab_group := g } else r).status = r.status := by
    by_cases h : r.id = rid <;> simp [h]
  rw [hst]
  simpa [reservationCount_setRequestGroup] using hb r hr

theorem binding_setStatus_unscheduled (s : Store) (rid : Nat) (ns : String)
    (hns : ns ≠ "scheduled") (hzero : reservationCount s rid = 0) (hb : binding s) :
    binding (setRequestStatus s rid ns) := by
  refine binding_of_map s _ (fun r => if r.id == rid then { r with status := ns } else r) rfl
    (fun r => by by_cases h : r.id = rid <;> simp [h]) ?_
  intro r hr
  by_cases h : r.id = rid
  · have hst : (if r.id == rid then { r with status := ns } else r).status = ns := by simp [h]
    rw [hst]
    refine ⟨fun hsch => absurd hsch hns, fun _ => ?_⟩
    rw [reservationCount_setRequestStatus, h]
    exact hzero
  · have hst : (if r.id == rid then { r with status := ns } else r).status = r.status := by
      simp [h]
    rw [hst]
    simpa [reservationCount_setRequestStatus] using hb r hr

theorem binding_assign (s : Store) (rid : Nat) (hb : binding s) :
    binding (_assign_reservation_for_request s rid).2 := by
  rcases assign_result s rid with ⟨_, heq⟩ | ⟨_, _, heq⟩ | ⟨req, hreq, hres, heq⟩ |
    ⟨req, lab, hreq, hres, _, _, _, _, heq⟩
  · rw [heq]; exact hb
  · rw [heq]; exact hb
  · rw [heq]; exact binding_setRequestGroup s rid _ hb
  · rw [heq]
    have hzero : reservationCount s rid = 0 := reservationCount_eq_zero_of_none s rid hres
    refine binding_of_map s _
      ((fun r => if r.id == rid then { r with status := "scheduled" } else r) ∘
        (fun r => if r.id == rid then { r with lab_group := _infer_req_group s req } else r))
      (by
        show ((s.requests.map (fun r =>
            if r.id == rid then { r with lab_group := _infer_req_group s req } else r)).map
          (fun r => if r.id == rid then { r with status := "scheduled" } else r)) = _
        exact List.map_map ..)
      (fun r => by by_cases h : r.id = rid <;> simp [Function.comp, h]) ?_
    intro r hr
    by_cases h : r.id = rid
    · have hst : (((fun r => if r.id == rid then { r with status := "scheduled" } else r) ∘
          (fun r => if r.id == rid then { r with lab_group := _infer_req_group s req } else r))
            r).status = "scheduled" := by
        simp [Function.comp, h]
      rw [hst]
      refine ⟨fun _ => ?_, fun hne => absurd rfl hne⟩
      show ((s.reservations ++
        [(⟨s.next_reservation_id, lab.id, rid, req.date, req.period⟩ : Reservation)]).filter
          (fun v => v.request_id == r.id)).length = 1
      rw [count_append_single]
      have hflt : (s.reservations.filter (fun v => v.request_id == r.id)).length = 0 := by
        rw [h]; exact hzero
      rw [hflt]
      simp [h]
    · have hst : (((fun r => if r.id == rid then { r with status := "scheduled" } else r) ∘
          (fun r => if r.id == rid then { r with lab_group := _infer_req_group s req } else r))
            r).status = r.status := by
        simp [Function.comp, h]
      rw [hst]
      have hcnt : ∀ y : Nat, y = r.id →
          ((s.reservations ++
            [(⟨s.next_reservation_id, lab.id, rid, req.date, req.period⟩ : Reservation)]).filter
              (fun v => v.request_id == y)).length =
            (s.reservations.filter (fun v => v.request_id == y)).length := by
        intro y hy
        rw [count_append_single]
        have : ¬(rid = y) := by rw [hy]; exact fun hc => h hc.symm
        simp [this]
      rcases hb r hr with ⟨h1, h2⟩
      constructor
      · intro hsch
        show ((s.reservations ++ _).filter _).length = 1
        rw [hcnt r.id rfl]
        exact h1 hsch
      · intro hsch
        show ((s.reservations ++ _).filter _).length = 0
        rw [hcnt r.id rfl]
        exact h2 hsch

theorem binding_erase_setStatus (s : Store) (rid : Nat) (ns : String) (req : LabRequest)
    (hreq : getRequest s rid = some req) (hns : ns ≠ "scheduled") (hb : binding s) :
    binding (setRequestStatus
      { s with reservations := s.reservations.eraseP (fun v => v.request_id == rid) } rid ns) := by
  have hle : (s.reservations.filter (fun v => v.request_id == rid)).length ≤ 1 :=
    reservationCount_le_one s rid req hreq hb
  refine binding_of_map s _ (fun r => if r.id == rid then { r with status := ns } else r) rfl
    (fun r => by by_cases h : r.id = rid <;> simp [h]) ?_
  intro r hr
  by_cases h : r.id = rid
  · have hst : (if r.id == rid then { r with status := ns } else r).status = ns := by simp [h]
    rw [hst]
    refine ⟨fun hsch => absurd hsch hns, fun _ => ?_⟩
    show ((s.reservations.eraseP (fun v => v.request_id == rid)).filter
      (fun v => v.request_id == r.id)).length = 0
    rw [h]
    have he := length_filter_eraseP_self (fun v : Reservation => v.request_id == rid) s.reservations
    omega
  · have hst : (if r.id == rid then { r with status := ns } else r).status = r.status := by
      simp [h]
    rw [hst]
    have hfe : ((s.reservations.eraseP (fun v => v.request_id == rid)).filter
        (fun v => v.request_id == r.id)) =
          s.reservations.filter (fun v => v.request_id == r.id) := by
      apply filter_eraseP_ne
      intro a ha
      have haa : a.request_id = rid := by simpa using ha
      simp [haa]
      exact fun hc => h hc.symm
    rcases hb r hr with ⟨h1, h2⟩
    constructor
    · intro hsch
      show ((s.reservations.eraseP (fun v => v.request_id == rid)).filter
        (fun v => v.request_id == r.id)).length = 1
      rw [hfe]
      exact h1 hsch
    · intro hsch
      show ((s.reservations.eraseP (fun v => v.request_id == rid)).filter
        (fun v => v.request_id == r.id)).length = 0
      rw [hfe]
      exact h2 hsch

theorem binding_manual (s : Store) (rid : Nat) (lid : Option Nat) (hb : binding s) :
    binding (manual_assign s rid lid).2 := by
  rcases manual_result s rid lid with heq | ⟨req, lab, lab_id, _, hreq, _, _, _, hconf, heq⟩
  · rw [heq]; exact hb
  · rw [heq]
    have hle : (s.reservations.filter (fun v => v.request_id == rid)).length ≤ 1 :=
      reservationCount_le_one s rid req hreq hb
    refine binding_of_map s _
      (fun r => if r.id == rid then { r with status := "scheduled" } else r) rfl
      (fun r => by by_cases h : r.id = rid <;> simp [h]) ?_
    intro r hr
    by_cases h : r.id = rid
    · have hst : (if r.id == rid then { r with status := "scheduled" } else r).status =
          "scheduled" := by simp [h]
      rw [hst]
      refine ⟨fun _ => ?_, fun hne => absurd rfl hne⟩
      show (((s.reservations.eraseP (fun v => v.request_id == rid)) ++
        [(⟨s.next_reservation_id, lab.id, rid, req.date, req.period⟩ : Reservation)]).filter
          (fun v => v.request_id == r.id)).length = 1
      rw [count_append_single, h, if_pos rfl]
      have he := length_filter_eraseP_self (fun v : Reservation => v.request_id == rid) s.reservations
      omega
    · have hst : (if r.id == rid then { r with status := "scheduled" } else r).status =
          r.status := by simp [h]
      rw [hst]
      have hfe : ((s.reservations.eraseP (fun v => v.request_id == rid)).filter
          (fun v => v.request_id == r.id)) =
            s.reservations.filter (fun v => v.request_id == r.id) := by
        apply filter_eraseP_ne
        intro a ha
        have haa : a.request_id = rid := by simpa using ha
        simp [haa]
        exact fun hc => h hc.symm
      have hcnt : (((s.reservations.eraseP (fun v => v.request_id == rid)) ++
          [(⟨s.next_reservation_id, lab.id, rid, req.date, req.period⟩ : Reservation)]).filter
            (fun v => v.request_id == r.id)).length =
          (s.reservations.filter (fun v => v.request_id == r.id)).length := by
        rw [count_append_single, hfe]
        have : ¬(rid = r.id) := fun hc => h hc.symm
        simp [this]
      rcases hb r hr with ⟨h1, h2⟩
      constructor
      · intro hsch
        show (((s.reservations.eraseP (fun v => v.request_id == rid)) ++ _).filter _).length = 1
        rw [hcnt]
        exact h1 hsch
      · intro hsch
        show (((s.reservations.eraseP (fun v => v.request_id == rid)) ++ _).filter _).length = 0
        rw [hcnt]
        exact h2 hsch

theorem binding_update_request_status (s : Store) (rid : Nat) (ns : String) (hb : binding s) :
    binding (update_request_status s rid ns) := by
  cases hreq : getRequest s rid with
  | none =>
    have : update_request_status s rid ns = s := by
      unfold update_request_status; rw [hreq]
    rw [this]; exact hb
  | some req =>
    have hbody : update_request_status s rid ns =
        (if decide (ns ≠ "pending" ∧ ns ≠ "approved" ∧ ns ≠ "scheduled" ∧ ns ≠ "conflict") = true
          then s
        else if decide (ns = "scheduled") = true then
          match _assign_reservation_for_request s rid with
          | (true, s1) => s1
          | (false, s1) => setRequestStatus s1 rid "conflict"
        else
          setRequestStatus
            { s with reservations := s.reservations.eraseP (fun v => v.request_id == rid) }
            rid ns) := by
      unfold update_request_status; rw [hreq]
    rw [hbody]
    by_cases hvalid : decide (ns ≠ "pending" ∧ ns ≠ "approved" ∧ ns ≠ "scheduled" ∧
        ns ≠ "conflict") = true
    · rw [if_pos hvalid]; exact hb
    · rw [if_neg hvalid]
      by_cases hsch : decide (ns = "scheduled") = true
      · rw [if_pos hsch]
        rcases hA : _assign_reservation_for_request s rid with ⟨ok, s1⟩
        cases ok
        · show binding (setRequestStatus s1 rid "conflict")
          rcases assign_result s rid with ⟨hn, heq⟩ | ⟨_, _, heq⟩ | ⟨req2, hreq2, hres2, heq⟩ |
            ⟨req2, lab, _, _, _, _, _, _, heq⟩
          · rw [hreq] at hn; cases hn
          · rw [hA] at heq
            injection heq with he1 _
            simp at he1
          · rw [hA] at heq
            injection heq with _ he2
            subst he2
            refine binding_setStatus_unscheduled _ _ _ (by decide) ?_
              (binding_setRequestGroup s rid _ hb)
            rw [reservationCount_setRequestGroup]
            exact reservationCount_eq_zero_of_none s rid hres2
          · rw [hA] at heq
            injection heq with he1 _
            simp at he1
        · show binding s1
          have := binding_assign s rid hb
          rw [hA] at this
          exact this
      · rw [if_neg hsch]
        have hns : ns ≠ "scheduled" := by simpa using hsch
        exact binding_erase_setStatus s rid ns req hreq hns hb

theorem binding_auto_step (st : Store) (r : LabRequest) (hb : binding st) :
    binding (auto_step st r) := by
  unfold auto_step
  by_cases h : (reservationForRequest st r.id).isSome = true
  · rw [if_pos h]; exact hb
  · rw [if_neg h]
    have hnone : reservationForRequest st r.id = none := by
      cases hr2 : reservationForRequest st r.id
      · rfl
      · rw [hr2] at h; simp at h
    rcases hA : _assign_reservation_for_request st r.id with ⟨ok, s1⟩
    cases ok
    · show binding (setRequestStatus s1 r.id "conflict")
      rcases assign_result st r.id with ⟨hn, heq⟩ | ⟨_, _, heq⟩ | ⟨req2, hreq2, hres2, heq⟩ |
        ⟨req2, lab, _, _, _, _, _, _, heq⟩
      · rw [hA] at heq
        injection heq with _ he2
        rw [he2]
        exact binding_setStatus_unscheduled st r.id "conflict" (by decide)
          (reservationCount_eq_zero_of_none st r.id hnone) hb
      · rw [hA] at heq
        injection heq with he1 _
        simp at he1
      · rw [hA] at heq
        injection heq with _ he2
        subst he2
        refine binding_setStatus_unscheduled _ _ _ (by decide) ?_
          (binding_setRequestGroup st r.id _ hb)
        rw [reservationCount_setRequestGroup]
        exact reservationCount_eq_zero_of_none st r.id hres2
      · rw [hA] at heq
        injection heq with he1 _
        simp at he1
    · show binding s1
      have := binding_assign st r.id hb
      rw [hA] at this
      exact this

theorem binding_run_auto_schedule (s : Store) (hb : binding s) :
    binding (run_auto_schedule s) := by
  unfold run_auto_schedule
  exact foldl_preserve binding auto_step (fun st r h => binding_auto_step st r h) _ s hb

/-! ### Status tracking through the batch run -/

theorem statusOf_assign_ne (s : Store) (rid q : Nat) (h : q ≠ rid) :
    statusOf (_assign_reservation_for_request s rid).2 q = statusOf s q := by
  rcases assign_result s rid with ⟨_, heq⟩ | ⟨_, _, heq⟩ | ⟨req, _, _, heq⟩ |
    ⟨req, lab, _, _, _, _, _, _, heq⟩
  · rw [heq]
  · rw [heq]
  · rw [heq]; exact statusOf_setRequestGroup s rid _ q
  · rw [heq]
    exact (statusOf_setRequestStatus_ne _ rid "scheduled" q h).trans
      (statusOf_setRequestGroup s rid (_infer_req_group s req) q)

theorem statusOf_auto_step_ne (st : Store) (r : LabRequest) (q : Nat) (h : q ≠ r.id) :
    statusOf (auto_step st r) q = statusOf st q := by
  unfold auto_step
  by_cases hres : (reservationForRequest st r.id).isSome = true
  · rw [if_pos hres]
  · rw [if_neg hres]
    rcases hA : _assign_reservation_for_request st r.id with ⟨ok, s1⟩
    have hs1 : statusOf s1 q = statusOf st q := by
      have := statusOf_assign_ne st r.id q h
      rw [hA] at this
      exact this
    cases ok
    · show statusOf (setRequestStatus s1 r.id "conflict") q = statusOf st q
      rw [statusOf_setRequestStatus_ne s1 r.id _ q h, hs1]
    · show statusOf s1 q = statusOf st q
      exact hs1

theorem statusOf_fold_ne (q : Nat) :
    ∀ (l : List LabRequest) (st : Store), (∀ r ∈ l, r.id ≠ q) →
      statusOf (l.foldl auto_step st) q = statusOf st q := by
  intro l
  induction l with
  | nil => intro st _; rfl
  | cons a t ih =>
    intro st hall
    rw [List.foldl_cons,
      ih (auto_step st a) (fun r hr => hall r (List.mem_cons_of_mem a hr)),
      statusOf_auto_step_ne st a q (fun hc => hall a (List.mem_cons_self a t) hc.symm)]

theorem assign_success_status (s s1 : Store) (rid : Nat)
    (hres : reservationForRequest s rid = none)
    (hA : _assign_reservation_for_request s rid = (true, s1)) :
    statusOf s1 rid = some "scheduled" := by
  rcases assign_result s rid with ⟨_, heq⟩ | ⟨_, hres2, heq⟩ | ⟨req, _, _, heq⟩ |
    ⟨req, lab, hreq, _, _, _, _, _, heq⟩
  · rw [hA] at heq; injection heq with he1 _; simp at he1
  · rw [hres] at hres2; simp at hres2
  · rw [hA] at heq; injection heq with he1 _; simp at he1
  · rw [hA] at heq
    injection heq with _ he2
    subst he2
    apply statusOf_setRequestStatus_self
    show (getRequest (setRequestGroup s rid (_infer_req_group s req)) rid).isSome = true
    rw [getRequest_isSome_setRequestGroup, hreq]
    rfl

theorem getRequest_eq_of_mem (s : Store) (r : LabRequest) (hu : uniqRequestIds s)
    (hm : r ∈ s.requests) : getRequest s r.id = some r := by
  unfold getRequest
  have hsome : (s.requests.find? (fun x => x.id == r.id)).isSome = true :=
    List.find?_isSome.mpr ⟨r, hm, by simp⟩
  obtain ⟨x, hx⟩ := Option.isSome_iff_exists.mp hsome
  have hxmem := List.mem_of_find?_eq_some hx
  have hxid : x.id = r.id := by simpa using List.find?_some hx
  rw [hx, eq_of_pairwise_ne_key LabRequest.id hu x hxmem r hm hxid]

theorem mem_auto_schedule_order (s : Store) (r : LabRequest) :
    r ∈ auto_schedule_order s ↔
      r ∈ s.requests ∧ (r.status = "pending" ∨ r.status = "approved") := by
  unfold auto_schedule_order
  rw [mem_sortLe, List.mem_filter]
  simp

theorem pairwise_ne_auto_schedule_order (s : Store) (hu : uniqRequestIds s) :
    (auto_schedule_order s).Pairwise (fun a b => a.id ≠ b.id) := by
  unfold auto_schedule_order
  have h1 : (s.requests.filter (fun r =>
      decide (r.status = "pending") || decide (r.status = "approved"))).Pairwise
      (fun a b => a.id ≠ b.id) :=
    hu.sublist (List.filter_sublist _)
  exact ((sortLe_perm _ _).pairwise_iff (fun hab => Ne.symm hab)).mpr h1

theorem auto_fold_post :
    ∀ (l : List LabRequest) (st : Store), binding st →
      l.Pairwise (fun a b => a.id ≠ b.id) →
      (∀ r ∈ l, statusOf st r.id = some r.status ∧
        (r.status = "pending" ∨ r.status = "approved")) →
      ∀ r ∈ l, statusOf (l.foldl auto_step st) r.id = some "scheduled" ∨
        statusOf (l.foldl auto_step st) r.id = some "conflict" := by
  intro l
  induction l with
  | nil => intro st _ _ _ r hr; cases hr
  | cons a t ih =>
    intro st hb hpw hstat r hr
    rw [List.foldl_cons]
    rcases List.pairwise_cons.mp hpw with ⟨hhead, htail⟩
    rcases hstat a (List.mem_cons_self a t) with ⟨hsa, hpa⟩
    obtain ⟨ra, hra, hras⟩ : ∃ ra, getRequest st a.id = some ra ∧ ra.status = a.status := by
      unfold statusOf at hsa
      cases hga : getRequest st a.id with
      | none => rw [hga] at hsa; cases hsa
      | some ra =>
        rw [hga] at hsa
        refine ⟨ra, rfl, ?_⟩
        simpa using hsa
    have hnsched : ra.status ≠ "scheduled" := by
      rw [hras]; rcases hpa with h | h <;> rw [h] <;> decide
    have hmem := mem_of_getRequest_some st a.id ra hra
    have hzero : reservationCount st a.id = 0 := by
      have := (hb ra hmem).2 hnsched
      rwa [getRequest_some_id st a.id ra hra] at this
    have hnone : reservationForRequest st a.id = none := by
      unfold reservationForRequest
      apply List.find?_eq_none.mpr
      intro x hx
      have hnil : st.reservations.filter (fun v => v.request_id == a.id) = [] :=
        List.length_eq_zero.mp hzero
      exact (List.filter_eq_nil_iff.mp hnil) x hx
    have hstep : statusOf (auto_step st a) a.id = some "scheduled" ∨
        statusOf (auto_step st a) a.id = some "conflict" := by
      unfold auto_step
      have hcond : ¬((reservationForRequest st a.id).isSome = true) := by
        rw [hnone]; simp
      rw [if_neg hcond]
      rcases hA : _assign_reservation_for_request st a.id with ⟨ok, s1⟩
      cases ok
      · right
        show statusOf (setRequestStatus s1 a.id "conflict") a.id = some "conflict"
        apply statusOf_setRequestStatus_self
        rcases assign_result st a.id with ⟨hn, heq⟩ | ⟨_, _, heq⟩ | ⟨req2, hreq2, hres2, heq⟩ |
          ⟨req2, lab, _, _, _, _, _, _, heq⟩
        · rw [hra] at hn; cases hn
        · rw [hA] at heq; injection heq with he1 _; simp at he1
        · rw [hA] at heq
          injection heq with _ he2
          subst he2
          show (getRequest (setRequestGroup st a.id (_infer_req_group st req2)) a.id).isSome = true
          rw [getRequest_isSome_setRequestGroup, hra]
          rfl
        · rw [hA] at heq; injection heq with he1 _; simp at he1
      · left
        show statusOf s1 a.id = some "scheduled"
        exact assign_success_status st s1 a.id hnone hA
    have hbstep : binding (auto_step st a) := binding_auto_step st a hb
    rcases List.mem_cons.mp hr with rfl | hrt
    · have hfr : statusOf (t.foldl auto_step (auto_step st r)) r.id =
          statusOf (auto_step st r) r.id :=
        statusOf_fold_ne r.id t (auto_step st r)
          (fun r2 hr2 => fun hc => hhead r2 hr2 hc.symm)
      rw [hfr]
      exact hstep
    · refine ih (auto_step st a) hbstep htail ?_ r hrt
      intro r2 hr2
      rcases hstat r2 (List.mem_cons_of_mem a hr2) with ⟨hs2, hp2⟩
      refine ⟨?_, hp2⟩
      rw [statusOf_auto_step_ne st a r2.id (fun hc => (hhead r2 hr2) hc.symm), hs2]

/-! ### The suggestion search: loop versus filter-and-take description -/

theorem suggestLoop_eq (s : Store) (al : List Lab) (g : String) (d0 : Int) (p0 : Nat)
    (k : Nat) :
    ∀ (cands : List (Int × Nat)) (acc : List Suggestion), acc.length < k →
      suggestLoop s al g d0 p0 k acc cands =
        acc ++ (((cands.filter (fun c => !(c.1 == d0 && c.2 == p0) &&
            !(freeLabsAt s al g c.1 c.2).isEmpty)).map
          (fun c => (⟨c.1, c.2,
            ((freeLabsAt s al g c.1 c.2).map (fun l => l.name)).take 3⟩ : Suggestion))).take
          (k - acc.length)) := by
  intro cands
  induction cands with
  | nil => intro acc h; simp [suggestLoop]
  | cons c rest ih =>
    intro acc h
    obtain ⟨d, p⟩ := c
    have hunf : suggestLoop s al g d0 p0 k acc ((d, p) :: rest) =
        (if (d == d0 && p == p0) = true then suggestLoop s al g d0 p0 k acc rest
        else if k ≤ (if (freeLabsAt s al g d p).isEmpty = true then acc
            else acc ++
              [⟨d, p, ((freeLabsAt s al g d p).map (fun l => l.name)).take 3⟩]).length then
          (if (freeLabsAt s al g d p).isEmpty = true then acc
            else acc ++ [⟨d, p, ((freeLabsAt s al g d p).map (fun l => l.name)).take 3⟩])
        else suggestLoop s al g d0 p0 k
          (if (freeLabsAt s al g d p).isEmpty = true then acc
            else acc ++ [⟨d, p, ((freeLabsAt s al g d p).map (fun l => l.name)).take 3⟩])
          rest) := rfl
    rw [hunf]
    by_cases hown : (d == d0 && p == p0) = true
    · rw [if_pos hown, ih acc h]
      simp only [Bool.and_eq_true, beq_iff_eq] at hown
      obtain ⟨hd, hp⟩ := hown
      simp [List.filter_cons, hd, hp]
    · rw [if_neg hown]
      by_cases hfree : (freeLabsAt s al g d p).isEmpty = true
      · rw [if_pos hfree, if_neg (Nat.not_le.mpr h), ih acc h]
        simp [List.filter_cons, List.isEmpty_iff.mp hfree]
      · rw [if_neg hfree]
        have hpred : (!(d == d0 && p == p0) && !(freeLabsAt s al g d p).isEmpty) = true := by
          simp only [Bool.and_eq_true, Bool.not_eq_true']
          exact ⟨by simpa using hown, by simpa using hfree⟩
        have hlen : (acc ++ [(⟨d, p,
            ((freeLabsAt s al g d p).map (fun l => l.name)).take 3⟩ : Suggestion)]).length =
            acc.length + 1 := by simp
        by_cases hk2 : k ≤ acc.length + 1
        · rw [if_pos (by rw [hlen]; exact hk2)]
          have htake : k - acc.length = 1 := by omega
          rw [List.filter_cons]
          simp only [hpred, if_true, List.map_cons, htake, List.take_succ_cons, List.take_zero]
        · rw [if_neg (by rw [hlen]; exact hk2)]
          have hlt : (acc ++ [(⟨d, p,
              ((freeLabsAt s al g d p).map (fun l => l.name)).take 3⟩ : Suggestion)]).length <
              k := by rw [hlen]; omega
          rw [ih _ hlt, hlen]
          rw [List.filter_cons]
          simp only [hpred, if_true, List.map_cons]
          have hsub : k - acc.length = (k - (acc.length + 1)) + 1 := by omega
          rw [hsub, List.take_succ_cons]
          simp [List.append_assoc]

/-! ### Remaining helper lemmas -/

theorem not_mem_occupiedLabIds (s : Store) (d : Int) (p : Nat) (g : String) (x : Nat)
    (h : ∀ v ∈ s.reservations, ¬(v.lab_id = x ∧ v.date = d ∧ v.period = p)) :
    x ∉ occupiedLabIds s d p g := by
  intro hx
  unfold occupiedLabIds at hx
  rcases List.mem_map.mp hx with ⟨v, hv, hvx⟩
  rcases List.mem_filter.mp hv with ⟨hvmem, hpred⟩
  simp only [Bool.and_eq_true, beq_iff_eq] at hpred
  exact h v hvmem ⟨hvx, hpred.1.1, hpred.1.2⟩

theorem pairLe_total (a b : Nat × Nat) : pairLe a b = true ∨ pairLe b a = true := by
  simp only [pairLe, decide_eq_true_eq]
  omega

theorem pairLe_trans (a b c : Nat × Nat) (h1 : pairLe a b = true) (h2 : pairLe b c = true) :
    pairLe a c = true := by
  simp only [pairLe, decide_eq_true_eq] at h1 h2 ⊢
  omega

theorem assign_shortcircuit (s : Store) (rid : Nat)
    (hg : (getRequest s rid).isSome = true)
    (hr : (reservationForRequest s rid).isSome = true) :
    _assign_reservation_for_request s rid = (true, s) := by
  rcases assign_result s rid with ⟨hn, _⟩ | ⟨_, _, heq⟩ | ⟨req, _, hres, _⟩ |
    ⟨req, lab, _, hres, _, _, _, _, _⟩
  · rw [hn] at hg; simp at hg
  · exact heq
  · rw [hres] at hr; simp at hr
  · rw [hres] at hr; simp at hr

/-! ### The claims -/

/-- C1: Slot uniqueness is an invariant of every reservation-creating
operation: starting from a store with distinct lab ids in which no two
reservations share the same (lab, date, period) triple, after any call to
`_assign_reservation_for_request`, `run_auto_schedule` or `manual_assign`,
still no two distinct reservations share the same (lab, date, period)
triple. -/
theorem slot_uniqueness_invariant (s : Store) (hu : uniqLabIds s) (hs : slotUnique s) :
    (∀ rid, slotUnique (_assign_reservation_for_request s rid).2) ∧
    slotUnique (run_auto_schedule s) ∧
    (∀ rid lid, slotUnique (manual_assign s rid lid).2) :=
  ⟨fun rid => slotUnique_assign s rid hu hs,
    slotUnique_run_auto_schedule s hu hs,
    fun rid lid => slotUnique_manual s rid lid hs⟩

/-- Witness for C1 on a concrete store. -/
theorem slot_uniqueness_invariant_witness :
    slotUnique (run_auto_schedule exStoreBasic) ∧
    slotUnique (manual_assign exStoreBasic 1 (some 1)).2 :=
  ⟨(slot_uniqueness_invariant exStoreBasic (by decide) (by decide)).2.1,
    (slot_uniqueness_invariant exStoreBasic (by decide) (by decide)).2.2 1 (some 1)⟩

/-- C3: The 1:1 binding invariant is preserved by every core operation
(`_assign_reservation_for_request`, `run_auto_schedule`, `manual_assign`,
`update_request_status`): a request with status "scheduled" has exactly one
reservation referencing it, and a request with any other status has zero. -/
theorem binding_invariant_preserved (s : Store) (hb : binding s) :
    (∀ rid, binding (_assign_reservation_for_request s rid).2) ∧
    binding (run_auto_schedule s) ∧
    (∀ rid lid, binding (manual_assign s rid lid).2) ∧
    (∀ rid ns, binding (update_request_status s rid ns)) :=
  ⟨fun rid => binding_assign s rid hb,
    binding_run_auto_schedule s hb,
    fun rid lid => binding_manual s rid lid hb,
    fun rid ns => binding_update_request_status s rid ns hb⟩

/-- Witness for C3 on a concrete store. -/
theorem binding_invariant_preserved_witness :
    binding (run_auto_schedule exStoreBasic) ∧
    binding (update_request_status exStoreBasic 1 "approved") :=
  ⟨(binding_invariant_preserved exStoreBasic (by decide)).2.1,
    (binding_invariant_preserved exStoreBasic (by decide)).2.2.2 1 "approved"⟩

/-- C5 counterexample: `run_auto_schedule` never returns an
`{assignedCount, conflictCount}` value — the Python function has no `return`
statement, so its return value is `None` on every call, here at the concrete
store `exStoreBasic`. -/
theorem run_auto_schedule_returns_none_counterexample :
    ¬ ∃ counts : Nat × Nat, run_auto_schedule_return exStoreBasic = some counts := by
  intro ⟨counts, h⟩
  simp [run_auto_schedule_return] at h

/-- C5 amended: `run_auto_schedule` returns no value (Python `None`); its
outcome is recorded only in the stored statuses — under unique request ids
and the 1:1 binding invariant, every request that entered the run as pending
or approved ends the run with status "scheduled" or "conflict". -/
theorem run_auto_schedule_no_return_value (s : Store) (hu : uniqRequestIds s)
    (hb : binding s) :
    run_auto_schedule_return s = none ∧
    ∀ r ∈ s.requests, (r.status = "pending" ∨ r.status = "approved") →
      statusOf (run_auto_schedule s) r.id = some "scheduled" ∨
      statusOf (run_auto_schedule s) r.id = some "conflict" := by
  refine ⟨rfl, ?_⟩
  intro r hr hp
  have hmem : r ∈ auto_schedule_order s := (mem_auto_schedule_order s r).mpr ⟨hr, hp⟩
  have hstat : ∀ r2 ∈ auto_schedule_order s,
      statusOf s r2.id = some r2.status ∧
      (r2.status = "pending" ∨ r2.status = "approved") := by
    intro r2 hr2
    rcases (mem_auto_schedule_order s r2).mp hr2 with ⟨hm2, hp2⟩
    refine ⟨?_, hp2⟩
    unfold statusOf
    rw [getRequest_eq_of_mem s r2 hu hm2]
    rfl
  exact auto_fold_post (auto_schedule_order s) s hb
    (pairwise_ne_auto_schedule_order s hu) hstat r hmem

/-- Witness for the amended C5 on a concrete store. -/
theorem run_auto_schedule_no_return_value_witness :
    run_auto_schedule_return exStoreBasic = none ∧
    (statusOf (run_auto_schedule exStoreBasic) 1 = some "scheduled" ∨
      statusOf (run_auto_schedule exStoreBasic) 1 = some "conflict") :=
  ⟨(run_auto_schedule_no_return_value exStoreBasic (by decide) (by decide)).1,
    (run_auto_schedule_no_return_value exStoreBasic (by decide) (by decide)).2
      exReqA (by decide) (by decide)⟩

/-- C7: `_assign_reservation_for_request` is idempotent on already-assigned
requests: if the request exists and already has a reservation, it returns
success and mutates nothing; hence after a first successful assignment on a
reservation-free request, a second call succeeds, changes nothing, and the
request has exactly one reservation. -/
theorem assign_idempotent (s : Store) (rid : Nat) :
    ((getRequest s rid).isSome = true → (reservationForRequest s rid).isSome = true →
      _assign_reservation_for_request s rid = (true, s)) ∧
    (∀ s1, reservationForRequest s rid = none →
      _assign_reservation_for_request s rid = (true, s1) →
      _assign_reservation_for_request s1 rid = (true, s1) ∧ reservationCount s1 rid = 1) := by
  constructor
  · exact assign_shortcircuit s rid
  · intro s1 hres hA
    rcases assign_result s rid with ⟨_, heq⟩ | ⟨_, hr2, heq⟩ | ⟨req, hreq, _, heq⟩ |
      ⟨req, lab, hreq, _, _, _, _, _, heq⟩
    · rw [hA] at heq
      injection heq with he1 _
      simp at he1
    · rw [hres] at hr2
      simp at hr2
    · rw [hA] at heq
      injection heq with he1 _
      simp at he1
    · rw [hA] at heq
      injection heq with _ he2
      subst he2
      have hgr : (getRequest (setRequestStatus
          { setRequestGroup s rid (_infer_req_group s req) with
            reservations := s.reservations ++
              [⟨s.next_reservation_id, lab.id, rid, req.date, req.period⟩],
            next_reservation_id := s.next_reservation_id + 1 } rid "scheduled") rid).isSome =
          true := by
        rw [getRequest_isSome_setRequestStatus]
        show (getRequest (setRequestGroup s rid (_infer_req_group s req)) rid).isSome = true
        rw [getRequest_isSome_setRequestGroup, hreq]
        rfl
      have hrr : (reservationForRequest (setRequestStatus
          { setRequestGroup s rid (_infer_req_group s req) with
            reservations := s.reservations ++
              [⟨s.next_reservation_id, lab.id, rid, req.date, req.period⟩],
            next_reservation_id := s.next_reservation_id + 1 } rid "scheduled") rid).isSome =
          true := by
        unfold reservationForRequest
        apply List.find?_isSome.mpr
        refine ⟨⟨s.next_reservation_id, lab.id, rid, req.date, req.period⟩, ?_, by simp⟩
        show _ ∈ s.reservations ++ [(⟨s.next_reservation_id, lab.id, rid, req.date,
          req.period⟩ : Reservation)]
        exact List.mem_append_right _ (List.mem_singleton_self _)
      refine ⟨assign_shortcircuit _ rid hgr hrr, ?_⟩
      show ((s.reservations ++ [(⟨s.next_reservation_id, lab.id, rid, req.date,
        req.period⟩ : Reservation)]).filter (fun v => v.request_id == rid)).length = 1
      rw [count_append_single]
      have hz : (s.reservations.filter (fun v => v.request_id == rid)).length = 0 :=
        reservationCount_eq_zero_of_none s rid hres
      simp [hz]

/-- Witness for C7 on a concrete store. -/
theorem assign_idempotent_witness :
    reservationForRequest exStoreBasic 1 = none ∧
    _assign_reservation_for_request exStoreBasicAfter 1 = (true, exStoreBasicAfter) ∧
    reservationCount exStoreBasicAfter 1 = 1 := by
  have h2 := (assign_idempotent exStoreBasic 1).2 exStoreBasicAfter (by decide) (by decide)
  exact ⟨by decide, h2.1, h2.2⟩

/-- C2: The preference pass is honored: for a reservation-free request whose
preference signal (own `preferred_lab_id`, or the teacher's as fallback)
resolves to a lab that is active, belongs to the resolved group, and has no
reservation at the request's (date, period), `_assign_reservation_for_request`
succeeds and creates the reservation on exactly that lab. -/
theorem preference_honored (s : Store) (rid : Nat) (req : LabRequest) (pl : Lab)
    (hreq : getRequest s rid = some req)
    (hnores : reservationForRequest s rid = none)
    (htruthy : pyTruthyId (pref_lab_id_of s req) = true)
    (hgetpl : getLab s ((pref_lab_id_of s req).getD 0) = some pl)
    (hactive : pl.is_active = true)
    (hgroup : pl.subject_group = _infer_req_group s req)
    (hfree : ∀ v ∈ s.reservations,
      ¬(v.lab_id = pl.id ∧ v.date = req.date ∧ v.period = req.period)) :
    (_assign_reservation_for_request s rid).1 = true ∧
    (_assign_reservation_for_request s rid).2.reservations =
      s.reservations ++ [⟨s.next_reservation_id, pl.id, rid, req.date, req.period⟩] := by
  have hnotocc : pl.id ∉ occupiedLabIds s req.date req.period (_infer_req_group s req) :=
    not_mem_occupiedLabIds s req.date req.period _ pl.id hfree
  have hpc : preference_choice s req (_infer_req_group s req)
      (occupiedLabIds s req.date req.period (_infer_req_group s req)) = some pl := by
    unfold preference_choice
    rw [if_pos htruthy, hgetpl]
    show (if pl.is_active && decide (pl.subject_group = _infer_req_group s req) &&
        !(decide (pl.id ∈ occupiedLabIds s req.date req.period (_infer_req_group s req))) then
      some pl else none) = some pl
    rw [if_pos (by simp [hactive, hgroup, hnotocc])]
  have hchoose : choose_lab s req (_infer_req_group s req)
      (activeLabsInGroup s (_infer_req_group s req))
      (occupiedLabIds s req.date req.period (_infer_req_group s req)) = some pl := by
    unfold choose_lab
    rw [hpc]
  have hmempl : pl ∈ activeLabsInGroup s (_infer_req_group s req) := by
    refine (mem_activeLabsInGroup _ _ _).mpr ⟨?_, hactive, hgroup⟩
    unfold getLab at hgetpl
    exact List.mem_of_find?_eq_some hgetpl
  have hne : ¬((activeLabsInGroup s (_infer_req_group s req)).isEmpty = true) := by
    intro hcase
    rw [List.isEmpty_iff.mp hcase] at hmempl
    cases hmempl
  have hbody0 : _assign_reservation_for_request s rid =
      (if (activeLabsInGroup s (_infer_req_group s req)).isEmpty then
        (false, setRequestGroup s rid (_infer_req_group s req))
      else
        match choose_lab s req (_infer_req_group s req)
            (activeLabsInGroup s (_infer_req_group s req))
            (occupiedLabIds s req.date req.period (_infer_req_group s req)) with
        | none => (false, setRequestGroup s rid (_infer_req_group s req))
        | some lab =>
          (true, setRequestStatus
            { setRequestGroup s rid (_infer_req_group s req) with
              reservations := s.reservations ++
                [⟨s.next_reservation_id, lab.id, rid, req.date, req.period⟩],
              next_reservation_id := s.next_reservation_id + 1 }
            rid "scheduled")) := by
    unfold _assign_reservation_for_request
    rw [hreq, hnores]
    rfl
  have hfinal : _assign_reservation_for_request s rid =
      (true, setRequestStatus
        { setRequestGroup s rid (_infer_req_group s req) with
          reservations := s.reservations ++
            [⟨s.next_reservation_id, pl.id, rid, req.date, req.period⟩],
          next_reservation_id := s.next_reservation_id + 1 }
        rid "scheduled") := by
    rw [hbody0, if_neg hne, hchoose]
  rw [hfinal]
  exact ⟨rfl, rfl⟩

/-- Witness for C2 on a concrete store: request 2 prefers lab 1. -/
theorem preference_honored_witness :
    (_assign_reservation_for_request exStorePref 2).1 = true ∧
    (_assign_reservation_for_request exStorePref 2).2.reservations =
      exStorePref.reservations ++
        [⟨exStorePref.next_reservation_id, exLabA.id, 2, exReqB.date, exReqB.period⟩] :=
  preference_honored exStorePref 2 exReqB exLabA (by decide) (by decide) (by decide)
    (by decide) (by decide) (by decide) (by decide)

/-- C8: `manual_assign` with an existing, active target lab whose group
differs from the request's resolved group is rejected with `GroupMismatch`
and mutates no state. -/
theorem manual_assign_group_mismatch (s : Store) (rid lid : Nat) (req : LabRequest)
    (lab : Lab)
    (hreq : getRequest s rid = some req)
    (hlab : getLab s lid = some lab)
    (hact : lab.is_active = true)
    (hmm : lab.subject_group ≠ _infer_req_group s req) :
    manual_assign s rid (some lid) = (ManualAssignResult.groupMismatch, s) := by
  have hbody : manual_assign s rid (some lid) =
      (if (!lab.is_active) = true then (.labNotFoundOrInactive, s)
      else if decide (lab.subject_group ≠ _infer_req_group s req) = true then
        (.groupMismatch, s)
      else if (s.reservations.find? (fun v =>
          v.lab_id == lab.id && v.date == req.date && v.period == req.period)).isSome = true then
        (.slotTaken, s)
      else
        (.assigned, setRequestStatus
          { s with
            reservations := (s.reservations.eraseP (fun v => v.request_id == rid)) ++
              [⟨s.next_reservation_id, lab.id, rid, req.date, req.period⟩],
            next_reservation_id := s.next_reservation_id + 1 }
          rid "scheduled")) := by
    unfold manual_assign
    simp only [hreq, hlab]
  rw [hbody, if_neg (by simp [hact]), if_pos (by simp [hmm])]

/-- Witness for C8 on a concrete store: request 1 resolves to "Tin học", the
target lab 2 is an active chemistry lab. -/
theorem manual_assign_group_mismatch_witness :
    manual_assign exStoreMismatch 1 (some 2) =
      (ManualAssignResult.groupMismatch, exStoreMismatch) :=
  manual_assign_group_mismatch exStoreMismatch 1 2 exReqA exLabChem (by decide) (by decide)
    (by decide) (by decide)

/-- C9: When `_assign_reservation_for_request` fails on a reservation-free
request, the only state change is persisting the resolved group onto the
request's `lab_group` field: reservations, labs and users are untouched and
no request's status changes. -/
theorem assign_failure_frame (s : Store) (rid : Nat) (req : LabRequest)
    (hreq : getRequest s rid = some req)
    (_hnores : reservationForRequest s rid = none)
    (hfail : (_assign_reservation_for_request s rid).1 = false) :
    (_assign_reservation_for_request s rid).2 =
      setRequestGroup s rid (_infer_req_group s req) ∧
    (_assign_reservation_for_request s rid).2.reservations = s.reservations ∧
    (_assign_reservation_for_request s rid).2.labs = s.labs ∧
    (_assign_reservation_for_request s rid).2.users = s.users ∧
    (∀ q, statusOf (_assign_reservation_for_request s rid).2 q = statusOf s q) := by
  rcases assign_result s rid with ⟨hn, _⟩ | ⟨_, _, heq⟩ | ⟨req2, hreq2, _, heq⟩ |
    ⟨req2, lab, _, _, _, _, _, _, heq⟩
  · rw [hreq] at hn; cases hn
  · rw [heq] at hfail; simp at hfail
  · obtain rfl : req2 = req := by
      rw [hreq] at hreq2
      injection hreq2 with h
      exact h.symm
    rw [heq]
    exact ⟨rfl, rfl, rfl, rfl, fun q => statusOf_setRequestGroup s rid _ q⟩
  · rw [heq] at hfail; simp at hfail

/-- Witness for C9 on a concrete store: request 4 resolves to a group with no
labs, so assignment fails and only `lab_group` is persisted. -/
theorem assign_failure_frame_witness :
    (_assign_reservation_for_request exStoreOrphan 4).1 = false ∧
    (_assign_reservation_for_request exStoreOrphan 4).2 =
      setRequestGroup exStoreOrphan 4 (_infer_req_group exStoreOrphan exReqOrphan) ∧
    (_assign_reservation_for_request exStoreOrphan 4).2.reservations =
      exStoreOrphan.reservations := by
  have h := assign_failure_frame exStoreOrphan 4 exReqOrphan (by decide) (by decide) (by decide)
  exact ⟨by decide, h.1, h.2.1⟩

/-- C4: `run_auto_schedule` folds over the backlog of pending/approved
requests in a two-tier order: the backlog is sorted by
`(preference-tier, created_at)` so that every request with a preference
signal comes before every request without one, and within each tier requests
are in ascending creation order; in particular any preference-free request
appears strictly after every preference-bearing one. -/
theorem batch_ordering_two_tier (s : Store) :
    run_auto_schedule s = (auto_schedule_order s).foldl auto_step s ∧
    (∀ r, r ∈ auto_schedule_order s ↔
      r ∈ s.requests ∧ (r.status = "pending" ∨ r.status = "approved")) ∧
    (auto_schedule_order s).Pairwise
      (fun a b => pairLe (autoKey s a) (autoKey s b) = true) ∧
    (∀ (i j : Fin (auto_schedule_order s).length),
      hasPrefSignal s ((auto_schedule_order s).get i) = false →
      hasPrefSignal s ((auto_schedule_order s).get j) = true →
      (j : Nat) < (i : Nat)) := by
  have hpw : (auto_schedule_order s).Pairwise
      (fun a b => pairLe (autoKey s a) (autoKey s b) = true) :=
    pairwise_sortLe _ (fun a b => pairLe_total (autoKey s a) (autoKey s b))
      (fun a b c h1 h2 => pairLe_trans (autoKey s a) (autoKey s b) (autoKey s c) h1 h2) _
  refine ⟨rfl, fun r => mem_auto_schedule_order s r, hpw, ?_⟩
  intro i j hi hj
  rcases Nat.lt_trichotomy (j : Nat) (i : Nat) with h | h | h
  · exact h
  · exfalso
    have hij : j = i := Fin.ext h
    rw [hij, hi] at hj
    cases hj
  · exfalso
    have hR := List.pairwise_iff_get.mp hpw i j h
    have hk1 : autoKey s ((auto_schedule_order s).get i) =
        (1, ((auto_schedule_order s).get i).created_at) := by
      unfold autoKey
      rw [hi]
      simp
    have hk2 : autoKey s ((auto_schedule_order s).get j) =
        (0, ((auto_schedule_order s).get j).created_at) := by
      unfold autoKey
      rw [hj]
      simp
    rw [hk1, hk2] at hR
    simp only [pairLe, decide_eq_true_eq] at hR
    omega

/-- Witness for C4 on a concrete store: request 1 has no preference and was
created first, request 2 prefers a lab and was created second; the batch
order attempts request 2 first. -/
theorem batch_ordering_two_tier_witness :
    auto_schedule_order exStoreBatch = [exReqB, exReqA] ∧ (0 : Nat) < 1 := by
  refine ⟨by decide, ?_⟩
  exact (batch_ordering_two_tier exStoreBatch).2.2.2 ⟨1, by decide⟩ ⟨0, by decide⟩
    (by decide) (by decide)

/-- C6: The suggestion search of `ai_explain_conflict_and_suggest` returns
exactly the first `top_k` qualifying candidates of the sign-alternating
date order `[d0, d0-1, d0+1, ...]` crossed with ascending periods
`1..max_period`, skipping the request's own slot, where a candidate
qualifies when at least one active in-group lab is unoccupied there. -/
theorem suggestion_search_first_topk (s : Store) (rid max_period day_window top_k : Nat)
    (req : LabRequest) (hreq : getRequest s rid = some req) (hk : 1 ≤ top_k) :
    ai_explain_suggestions s rid max_period day_window top_k =
      some (spec_suggestions s req max_period day_window top_k) := by
  have hbody : ai_explain_suggestions s rid max_period day_window top_k =
      some (suggestLoop s (activeLabsInGroup s (_infer_req_group s req))
        (_infer_req_group s req) req.date req.period top_k []
        (searchCandidates req.date day_window max_period)) := by
    unfold ai_explain_suggestions
    rw [hreq]
  rw [hbody, suggestLoop_eq s (activeLabsInGroup s (_infer_req_group s req))
    (_infer_req_group s req) req.date req.period top_k
    (searchCandidates req.date day_window max_period) [] (by simpa using hk)]
  unfold spec_suggestions
  simp

/-- Witness for C6: the spec Scenario 3 instance with `day_window = 2`,
`max_period = 2`, `top_k = 1` and (101, 2) the only free slot around the
conflicted request at (100, 1): the suggestion list is exactly that entry. -/
theorem suggestion_search_first_topk_witness :
    1 ≤ 1 ∧ ai_explain_suggestions exStoreSearch 3 2 2 1 =
      some [⟨101, 2, ["Lab A"]⟩] := by
  refine ⟨Nat.le_refl 1, ?_⟩
  rw [suggestion_search_first_topk exStoreSearch 3 2 2 1 exReqConf (by decide) (Nat.le_refl 1)]
  decide

/-- C10: Request submission rejects duplicates: when the submitting teacher
already has a request at the same (date, period) with status pending,
approved or scheduled, the `new_request` POST path refuses the submission and
creates no request record. -/
theorem duplicate_submission_rejected (s : Store) (u : User) (class_name : String)
    (period : Nat) (lab_group_form : String) (pref : Option Nat) (date_obj : Int)
    (week_id : Option Nat) (now : Nat)
    (hrole : u.role = "teacher")
    (hdup : ∃ r ∈ s.requests, r.teacher_id = u.id ∧ r.date = date_obj ∧ r.period = period ∧
      (r.status = "pending" ∨ r.status = "approved" ∨ r.status = "scheduled")) :
    (new_request s u class_name period lab_group_form pref date_obj week_id now).1 ≠
      NewRequestResult.created ∧
    (new_request s u class_name period lab_group_form pref date_obj week_id now).2.requests =
      s.requests := by
  have hfind : (s.requests.find? (fun r =>
      r.teacher_id == u.id && r.date == date_obj && r.period == period &&
        (decide (r.status = "pending") || decide (r.status = "approved") ||
          decide (r.status = "scheduled")))).isSome = true := by
    obtain ⟨r, hr, h1, h2, h3, h4⟩ := hdup
    apply List.find?_isSome.mpr
    refine ⟨r, hr, ?_⟩
    simp only [Bool.and_eq_true, Bool.or_eq_true, beq_iff_eq, decide_eq_true_eq]
    refine ⟨⟨⟨h1, h2⟩, h3⟩, ?_⟩
    tauto
  have hfinish : ∀ lg, new_request_finish s u.id class_name period lg pref date_obj
      week_id now = (.duplicateSlot, s) := by
    intro lg
    unfold new_request_finish
    rw [if_pos hfind]
  unfold new_request
  rw [if_neg (by simp [hrole])]
  by_cases hcn : decide (class_name = "") = true
  · rw [if_pos hcn]
    exact ⟨by simp, rfl⟩
  · rw [if_neg hcn]
    by_cases hp : pyTruthyId pref = true
    · rw [if_pos hp]
      cases hgl : getLab s (pref.getD 0) with
      | none => exact ⟨by simp, rfl⟩
      | some lab =>
        show (if (!lab.is_active) = true then (NewRequestResult.invalidPreferredLab, s)
          else new_request_finish s u.id class_name period lab.subject_group pref date_obj
            week_id now).1 ≠ NewRequestResult.created ∧
          (if (!lab.is_active) = true then (NewRequestResult.invalidPreferredLab, s)
          else new_request_finish s u.id class_name period lab.subject_group pref date_obj
            week_id now).2.requests = s.requests
        by_cases hact : (!lab.is_active) = true
        · rw [if_pos hact]
          exact ⟨by simp, rfl⟩
        · rw [if_neg hact, hfinish]
          exact ⟨by simp, rfl⟩
    · rw [if_neg hp, hfinish]
      exact ⟨by simp, rfl⟩

/-- Witness for C10: teacher 10 already has a pending request at (100, 1); a
second submission for that slot is refused. -/
theorem duplicate_submission_rejected_witness :
    (new_request exStoreBasic exTeacher "10B" 1 "Tin học" none 100 none 7).1 ≠
      NewRequestResult.created ∧
    (new_request exStoreBasic exTeacher "10B" 1 "Tin học" none 100 none 7).2.requests =
      exStoreBasic.requests :=
  duplicate_submission_rejected exStoreBasic exTeacher "10B" 1 "Tin học" none 100 none 7
    (by decide) ⟨exReqA, by decide, by decide, by decide, by decide, by decide⟩

end LabScheduler
